import Mathlib

/-!
Verification of the OmniKit chat-gateway core against its specification.

This file is a shallow embedding, in Lean 4, of the parts of the Rust source
that the specification's testable properties talk about:

* the chat intermediate representation (`src-tauri/src/modality/chat/ir.rs`);
* the five built-in codecs (`openai_chat.rs`, `anthropic.rs`, `gemini.rs`,
  `openai_responses.rs`, `moonshot.rs`), embedded at the wire-struct level:
  the serde (de)serialization layer between bytes and the derived wire structs
  is the identity on these types, so `decode (encode ir)` is modelled as the
  composition of the struct-level conversion functions;
* the circuit breaker (`routing/circuit.rs`), with `std::time::Instant`
  modelled as a natural-number timestamp passed explicitly to each operation;
* the load balancer (`routing/balancer.rs`), with the SQL query result,
  the circuit-breaker availability snapshot, the API-key lookup, and the RNG
  draws supplied as explicit parameters;
* the SSE transducer loop of `server/proxy.rs::proxy_stream`, parametrised by
  a stream codec;
* the token-expiry check of `server/proxy.rs::handle_route_proxy`.

`serde_json::Value` is embedded as the inductive `Json` below; Rust `f64`
pass-through fields (`temperature`, `top_p`) are embedded as `Rat`, which is
faithful for every claim here because the code only copies them verbatim.
-/

/-- JSON values, embedding `serde_json::Value`.  Object fields are kept as an
ordered association list. -/
inductive Json where
  | null : Json
  | bool (b : Bool) : Json
  | num (n : Int) : Json
  | str (s : String) : Json
  | arr (xs : List Json) : Json
  | obj (fields : List (String × Json)) : Json
deriving Repr

/-- Field lookup on a JSON object, embedding `Value::get(key)`. -/
def Json.getField : Json → String → Option Json
  | .obj fields, key => (fields.find? (fun p => p.1 = key)).map (·.2)
  | _, _ => Option.none

/-- Embeds `Value::as_str`. -/
def Json.asStr : Json → Option String
  | .str s => some s
  | _ => Option.none

/-- Embeds `Value::is_string`. -/
def Json.isString : Json → Bool
  | .str _ => true
  | _ => false

/-- Embeds `Value::is_array`. -/
def Json.isArray : Json → Bool
  | .arr _ => true
  | _ => false

/-- Embeds `Value::as_array`. -/
def Json.asArray : Json → Option (List Json)
  | .arr xs => some xs
  | _ => Option.none

-- ===========================================================================
-- IR types (modality/chat/ir.rs)
-- ===========================================================================

/-- Embeds `IrRole`. -/
inductive IrRole where
  | system | user | assistant | tool
deriving DecidableEq, Repr

/-- Embeds `IrContentPart`: a text part or an image part. -/
inductive IrContentPart where
  | text (text : String)
  | image (url : Option String) (media_type : Option String) (data : Option String)
deriving DecidableEq, Repr

/-- Embeds `IrContent`: a plain string or a list of parts. -/
inductive IrContent where
  | text (s : String)
  | parts (ps : List IrContentPart)
deriving DecidableEq, Repr

/-- Embeds `IrContent::to_text`: join all text parts. -/
def IrContent.to_text : IrContent → String
  | .text s => s
  | .parts ps => String.join (ps.filterMap (fun p =>
      match p with
      | .text t => some t
      | _ => Option.none))

/-- Embeds `IrContent::is_empty`. -/
def IrContent.is_empty : IrContent → Bool
  | .text s => s.isEmpty
  | .parts ps => ps.isEmpty

/-- Embeds `IrToolCall`. -/
structure IrToolCall where
  id : String
  name : String
  arguments : String
deriving DecidableEq, Repr

/-- Embeds `IrToolChoice`. -/
inductive IrToolChoice where
  | auto | choiceNone | any
  | tool (name : String)
deriving DecidableEq, Repr

/-- Embeds `IrMessage`. -/
structure IrMessage where
  role : IrRole
  content : IrContent
  tool_calls : Option (List IrToolCall) := Option.none
  tool_call_id : Option String := Option.none
  name : Option String := Option.none
deriving DecidableEq, Repr

/-- Embeds `IrTool`. -/
structure IrTool where
  name : String
  description : Option String
  parameters : Json
deriving Repr

/-- Embeds `IrFinishReason`. -/
inductive IrFinishReason where
  | stop | length | toolCalls | contentFilter
deriving DecidableEq, Repr

/-- Embeds `IrUsage`. -/
structure IrUsage where
  prompt_tokens : Nat
  completion_tokens : Nat
  total_tokens : Option Nat := Option.none
deriving DecidableEq, Repr

/-- Embeds `IrChatRequest`.  The `extra` map is `None` on every code path the
claims touch, so it is omitted here. -/
structure IrChatRequest where
  model : String
  messages : List IrMessage
  system : Option String := Option.none
  temperature : Option Rat := Option.none
  top_p : Option Rat := Option.none
  max_tokens : Option Nat := Option.none
  stream : Bool := false
  stop : Option (List String) := Option.none
  tools : Option (List IrTool) := Option.none
  tool_choice : Option IrToolChoice := Option.none
deriving Repr

/-- Embeds `IrChatResponse`. -/
structure IrChatResponse where
  id : String
  model : String
  message : IrMessage
  finish_reason : Option IrFinishReason := Option.none
  usage : Option IrUsage := Option.none
deriving Repr

/-- Embeds `IrToolCallDelta`. -/
structure IrToolCallDelta where
  index : Nat
  id : Option String := Option.none
  name : Option String := Option.none
  arguments : Option String := Option.none
deriving DecidableEq, Repr

/-- Embeds `IrStreamChunk`. -/
structure IrStreamChunk where
  id : String
  model : Option String := Option.none
  delta_role : Option IrRole := Option.none
  delta_content : Option String := Option.none
  delta_tool_calls : Option (List IrToolCallDelta) := Option.none
  finish_reason : Option IrFinishReason := Option.none
  usage : Option IrUsage := Option.none
deriving DecidableEq, Repr

/-- Embeds the `AppError` taxonomy (`error.rs`), restricted to the variants the
claims mention. -/
inductive AppError where
  | BadRequest (msg : String)
  | Unauthorized (msg : String)
  | NoChannel (model : String)
  | AllChannelsFailed (model : String)
  | Codec (msg : String)
  | Internal (msg : String)
deriving DecidableEq, Repr

-- ===========================================================================
-- OpenAI Chat codec (modality/chat/openai_chat.rs)
-- ===========================================================================

/-- Embeds `OaiStreamOptions`. -/
structure OaiStreamOptions where
  include_usage : Bool
deriving DecidableEq, Repr

/-- Embeds `OaiFunction`. -/
structure OaiFunction where
  name : String
  arguments : String
deriving DecidableEq, Repr

/-- Embeds `OaiToolCall` (`type` is serialized from the `call_type` field). -/
structure OaiToolCall where
  id : String
  call_type : String
  function : OaiFunction
deriving DecidableEq, Repr

/-- Embeds `OaiToolFunction`. -/
structure OaiToolFunction where
  name : String
  description : Option String
  parameters : Option Json
deriving Repr

/-- Embeds `OaiTool`. -/
structure OaiTool where
  tool_type : String
  function : OaiToolFunction
deriving Repr

/-- Embeds `OaiMessage`. -/
structure OaiMessage where
  role : String
  content : Option Json := Option.none
  tool_calls : Option (List OaiToolCall) := Option.none
  tool_call_id : Option String := Option.none
  name : Option String := Option.none
deriving Repr

/-- Embeds `OaiRequest`. -/
structure OaiRequest where
  model : String
  messages : List OaiMessage
  temperature : Option Rat := Option.none
  top_p : Option Rat := Option.none
  max_tokens : Option Nat := Option.none
  stream : Option Bool := Option.none
  stop : Option Json := Option.none
  tools : Option (List OaiTool) := Option.none
  tool_choice : Option Json := Option.none
  stream_options : Option OaiStreamOptions := Option.none
deriving Repr

/-- Embeds `OaiUsage`. -/
structure OaiUsage where
  prompt_tokens : Nat
  completion_tokens : Nat
  total_tokens : Nat
deriving DecidableEq, Repr

/-- Embeds `OaiChoice`. -/
structure OaiChoice where
  index : Nat
  message : OaiMessage
  finish_reason : Option String
deriving Repr

/-- Embeds `OaiResponse`. -/
structure OaiResponse where
  id : String
  object : String
  model : String
  choices : List OaiChoice
  usage : Option OaiUsage := Option.none
deriving Repr

/-- Embeds `oai_role_to_ir`. -/
def oai_role_to_ir (role : String) : IrRole :=
  if role = "system" then .system
  else if role = "assistant" then .assistant
  else if role = "tool" then .tool
  else .user

/-- Embeds `ir_role_to_oai`. -/
def ir_role_to_oai : IrRole → String
  | .system => "system"
  | .user => "user"
  | .assistant => "assistant"
  | .tool => "tool"

/-- Embeds `oai_content_to_ir`:  `None`/`Null`/other collapse to empty text, a
string stays text, an array becomes IR parts via a per-part type dispatch. -/
def oai_content_to_ir : Option Json → IrContent
  | Option.none => .text ""
  | some (.str s) => .text s
  | some (.arr parts) =>
    .parts (parts.filterMap (fun p =>
      match (p.getField "type").bind Json.asStr with
      | some "text" =>
        ((p.getField "text").bind Json.asStr).map (fun t => IrContentPart.text t)
      | some "image_url" =>
        (((p.getField "image_url").bind (fun iu => iu.getField "url")).bind Json.asStr).map
          (fun url => IrContentPart.image (some url) Option.none Option.none)
      | _ => Option.none))
  | some .null => .text ""
  | some _ => .text ""

/-- Embeds `ir_content_to_oai`. -/
def ir_content_to_oai : IrContent → Json
  | .text s => .str s
  | .parts ps =>
    .arr (ps.map (fun p =>
      match p with
      | .text t => Json.obj [("type", .str "text"), ("text", .str t)]
      | .image url _ _ =>
        Json.obj [("type", .str "image_url"),
          ("image_url", Json.obj [("url", match url with
            | some u => .str u
            | Option.none => .null)])]))

/-- Embeds `oai_finish_to_ir`. -/
def oai_finish_to_ir (reason : Option String) : Option IrFinishReason :=
  reason.map (fun r =>
    if r = "stop" then .stop
    else if r = "length" then .length
    else if r = "tool_calls" then .toolCalls
    else if r = "content_filter" then .contentFilter
    else .stop)

/-- Embeds `ir_finish_to_oai`. -/
def ir_finish_to_oai (reason : Option IrFinishReason) : Option String :=
  reason.map (fun r =>
    match r with
    | .stop => "stop"
    | .length => "length"
    | .toolCalls => "tool_calls"
    | .contentFilter => "content_filter")

/-- Embeds the per-message conversion for non-system messages in
`OpenAiChatCodec::decode_request`. -/
def oaiDecodeMessage (msg : OaiMessage) : IrMessage :=
  { role := oai_role_to_ir msg.role
    content := oai_content_to_ir msg.content
    tool_calls := msg.tool_calls.map (fun tcs => tcs.map (fun tc =>
      { id := tc.id, name := tc.function.name, arguments := tc.function.arguments }))
    tool_call_id := msg.tool_call_id
    name := msg.name }

/-- Embeds the message loop of `OpenAiChatCodec::decode_request`: system-role
messages overwrite the `system` accumulator, every other message is converted
and appended. -/
def oaiDecodeMessages : List OaiMessage → Option String → List IrMessage →
    Option String × List IrMessage
  | [], sys, acc => (sys, acc)
  | msg :: rest, sys, acc =>
    if msg.role = "system" then
      oaiDecodeMessages rest (some (oai_content_to_ir msg.content).to_text) acc
    else
      oaiDecodeMessages rest sys (acc ++ [oaiDecodeMessage msg])

/-- Embeds `OpenAiChatCodec::decode_request` at the wire-struct level (the
JSON-bytes parse preceding it is serde and can only fail before this point). -/
def oai_decode_request (req : OaiRequest) : IrChatRequest :=
  let sm := oaiDecodeMessages req.messages Option.none []
  { model := req.model
    messages := sm.2
    system := sm.1
    temperature := req.temperature
    top_p := req.top_p
    max_tokens := req.max_tokens
    stream := req.stream.getD false
    stop := req.stop.bind (fun s =>
      if s.isString then some [(s.asStr).getD ""]
      else if s.isArray then some (((s.asArray).getD []).filterMap Json.asStr)
      else Option.none)
    tools := req.tools.map (fun ts => ts.map (fun t =>
      { name := t.function.name
        description := t.function.description
        parameters := t.function.parameters.getD (Json.obj []) }))
    tool_choice := req.tool_choice.bind (fun tc =>
      if tc.isString then
        match tc.asStr with
        | some "auto" => some .auto
        | some "none" => some .choiceNone
        | some "required" => some .any
        | _ => Option.none
      else
        (((tc.getField "function").bind (fun f => f.getField "name")).bind Json.asStr).map
          (fun n => IrToolChoice.tool n)) }

/-- Embeds `OpenAiChatCodec::decode_response`. -/
def oai_decode_response (resp : OaiResponse) : Except AppError IrChatResponse :=
  match resp.choices.head? with
  | Option.none => .error (.Codec "No choices in response")
  | some choice =>
    let ir_msg : IrMessage :=
      { role := oai_role_to_ir choice.message.role
        content := oai_content_to_ir choice.message.content
        tool_calls := choice.message.tool_calls.map (fun tcs => tcs.map (fun tc =>
          { id := tc.id, name := tc.function.name, arguments := tc.function.arguments }))
        tool_call_id := Option.none
        name := Option.none }
    .ok
      { id := resp.id
        model := resp.model
        message := ir_msg
        finish_reason := oai_finish_to_ir choice.finish_reason
        usage := resp.usage.map (fun u =>
          { prompt_tokens := u.prompt_tokens
            completion_tokens := u.completion_tokens
            total_tokens := some u.total_tokens }) }

/-- Embeds the per-message conversion of `OpenAiChatCodec::encode_request`:
content is set first, then dropped again when `tool_calls` is present. -/
def oaiEncodeMessage (msg : IrMessage) : OaiMessage :=
  let base : OaiMessage :=
    { role := ir_role_to_oai msg.role
      content := some (ir_content_to_oai msg.content)
      tool_calls := Option.none
      tool_call_id := msg.tool_call_id
      name := msg.name }
  match msg.tool_calls with
  | Option.none => base
  | some tcs =>
    { base with
      content := Option.none
      tool_calls := some (tcs.map (fun tc =>
        { id := tc.id, call_type := "function",
          function := { name := tc.name, arguments := tc.arguments } })) }

/-- Embeds `OpenAiChatCodec::encode_request`. -/
def oai_encode_request (ir : IrChatRequest) (model : String) : OaiRequest :=
  let sysMsgs : List OaiMessage :=
    match ir.system with
    | some sys => [{ role := "system", content := some (.str sys) }]
    | Option.none => []
  { model := model
    messages := sysMsgs ++ ir.messages.map oaiEncodeMessage
    temperature := ir.temperature
    top_p := ir.top_p
    max_tokens := ir.max_tokens
    stream := if ir.stream then some true else Option.none
    stop := ir.stop.map (fun s => Json.arr (s.map Json.str))
    tools := ir.tools.map (fun ts => ts.map (fun t =>
      { tool_type := "function"
        function := { name := t.name, description := t.description,
                      parameters := some t.parameters } }))
    tool_choice := ir.tool_choice.map (fun tc =>
      match tc with
      | .auto => .str "auto"
      | .choiceNone => .str "none"
      | .any => .str "required"
      | .tool n => Json.obj [("type", .str "function"),
          ("function", Json.obj [("name", .str n)])])
    stream_options := if ir.stream then some { include_usage := true } else Option.none }

/-- Embeds `OpenAiChatCodec::encode_response`. -/
def oai_encode_response (ir : IrChatResponse) : OaiResponse :=
  let base : OaiMessage :=
    { role := ir_role_to_oai ir.message.role
      content := some (ir_content_to_oai ir.message.content) }
  let oai_msg : OaiMessage :=
    match ir.message.tool_calls with
    | Option.none => base
    | some tcs =>
      { base with tool_calls := some (tcs.map (fun tc =>
          { id := tc.id, call_type := "function",
            function := { name := tc.name, arguments := tc.arguments } })) }
  { id := ir.id
    object := "chat.completion"
    model := ir.model
    choices := [{ index := 0, message := oai_msg,
                  finish_reason := ir_finish_to_oai ir.finish_reason }]
    usage := ir.usage.map (fun u =>
      { prompt_tokens := u.prompt_tokens
        completion_tokens := u.completion_tokens
        total_tokens := u.total_tokens.getD (u.prompt_tokens + u.completion_tokens) }) }

/-- Embeds `OpenAiChatCodec::stream_done_signal`. -/
def oai_stream_done_signal : Option String := some "[DONE]"

/-- Embeds `OpenAiChatCodec::is_stream_done`. -/
def oai_is_stream_done (data : String) : Bool := data.trim = "[DONE]"

-- ===========================================================================
-- JSON rendering (serde_json::to_string, compact form)
-- ===========================================================================

/-- Embeds serde_json string escaping for the characters that matter here
(quote, backslash, and the common control characters). -/
def jsonEscapeChar (c : Char) : String :=
  if c = '"' then "\\\""
  else if c = '\\' then "\\\\"
  else if c = '\n' then "\\n"
  else if c = '\t' then "\\t"
  else if c = '\r' then "\\r"
  else String.singleton c

/-- Embeds serde_json string escaping. -/
def jsonEscape (s : String) : String :=
  String.join (s.toList.map jsonEscapeChar)

mutual

/-- Embeds `serde_json::to_string` (compact rendering, fields in list order). -/
def Json.render : Json → String
  | .null => "null"
  | .bool b => if b then "true" else "false"
  | .num n => toString n
  | .str s => "\"" ++ jsonEscape s ++ "\""
  | .arr xs => "[" ++ Json.renderList xs ++ "]"
  | .obj fs => "\x7b" ++ Json.renderFields fs ++ "\x7d"

/-- Comma-separated rendering of JSON array elements. -/
def Json.renderList : List Json → String
  | [] => ""
  | [x] => Json.render x
  | x :: xs => Json.render x ++ "," ++ Json.renderList xs

/-- Comma-separated rendering of JSON object fields. -/
def Json.renderFields : List (String × Json) → String
  | [] => ""
  | [(k, v)] => "\"" ++ jsonEscape k ++ "\":" ++ Json.render v
  | (k, v) :: fs =>
    "\"" ++ jsonEscape k ++ "\":" ++ Json.render v ++ "," ++ Json.renderFields fs

end

-- ===========================================================================
-- Anthropic codec (modality/chat/anthropic.rs)
-- ===========================================================================

/-- Embeds `AnthropicMessage`. -/
structure AnthropicMessage where
  role : String
  content : Json
deriving Repr

/-- Embeds `AnthropicTool`. -/
structure AnthropicTool where
  name : String
  description : Option String
  input_schema : Json
deriving Repr

/-- Embeds `AnthropicToolChoice` (`type` is serialized from `choice_type`). -/
structure AnthropicToolChoice where
  choice_type : String
  name : Option String := Option.none
deriving DecidableEq, Repr

/-- Embeds `AnthropicRequest`. -/
structure AnthropicRequest where
  model : String
  messages : List AnthropicMessage
  max_tokens : Nat
  system : Option Json := Option.none
  temperature : Option Rat := Option.none
  top_p : Option Rat := Option.none
  stop_sequences : Option (List String) := Option.none
  stream : Option Bool := Option.none
  tools : Option (List AnthropicTool) := Option.none
  tool_choice : Option AnthropicToolChoice := Option.none
deriving Repr

/-- Embeds `AnthropicContentBlock`. -/
inductive AnthropicContentBlock where
  | text (text : String)
  | toolUse (id : String) (name : String) (input : Json)
deriving Repr

/-- Embeds `AnthropicUsage`. -/
structure AnthropicUsage where
  input_tokens : Nat
  output_tokens : Nat
deriving DecidableEq, Repr

/-- Embeds `AnthropicResponse` (`type` is serialized from `resp_type`). -/
structure AnthropicResponse where
  id : String
  resp_type : String
  role : String
  content : List AnthropicContentBlock
  model : String
  stop_reason : Option String
  usage : Option AnthropicUsage := Option.none
deriving Repr

/-- Embeds `anthropic_stop_to_ir`. -/
def anthropic_stop_to_ir (reason : Option String) : Option IrFinishReason :=
  reason.map (fun r =>
    if r = "end_turn" ∨ r = "stop_sequence" then .stop
    else if r = "max_tokens" then .length
    else if r = "tool_use" then .toolCalls
    else .stop)

/-- Embeds `ir_finish_to_anthropic`. -/
def ir_finish_to_anthropic (reason : Option IrFinishReason) : Option String :=
  reason.map (fun r =>
    match r with
    | .stop => "end_turn"
    | .length => "max_tokens"
    | .toolCalls => "tool_use"
    | .contentFilter => "end_turn")

/-- Embeds the block loop of `anthropic_content_to_ir`: collect IR content
parts and tool calls from a list of content-block JSON objects, in order. -/
def anthropicBlocksToIr (blocks : List Json) : List IrContentPart × List IrToolCall :=
  blocks.foldl (fun acc block =>
    match ((block.getField "type").bind Json.asStr).getD "" with
    | "text" =>
      match (block.getField "text").bind Json.asStr with
      | some t => (acc.1 ++ [.text t], acc.2)
      | Option.none => acc
    | "image" =>
      match block.getField "source" with
      | some source =>
        (acc.1 ++ [.image Option.none
            ((source.getField "media_type").bind Json.asStr)
            ((source.getField "data").bind Json.asStr)], acc.2)
      | Option.none => acc
    | "tool_use" =>
      (acc.1, acc.2 ++ [{
        id := ((block.getField "id").bind Json.asStr).getD ""
        name := ((block.getField "name").bind Json.asStr).getD ""
        arguments := ((block.getField "input").getD (Json.obj [])).render }])
    | _ => acc) ([], [])

/-- Embeds `anthropic_content_to_ir`. -/
def anthropic_content_to_ir (content : Json) : IrContent × Option (List IrToolCall) :=
  match content with
  | .str s => (.text s, Option.none)
  | .arr blocks =>
    let pt := anthropicBlocksToIr blocks
    let ir_content : IrContent :=
      match pt.1 with
      | [IrContentPart.text t] => .text t
      | [] => .text ""
      | ps => .parts ps
    (ir_content, if pt.2.isEmpty then Option.none else some pt.2)
  | _ => (.text "", Option.none)

/-- Embeds `ir_content_to_anthropic`. -/
def ir_content_to_anthropic : IrContent → List Json
  | .text s =>
    if s.isEmpty then []
    else [Json.obj [("type", .str "text"), ("text", .str s)]]
  | .parts ps => ps.map (fun p =>
    match p with
    | .text t => Json.obj [("type", .str "text"), ("text", .str t)]
    | .image url media_type dataOpt =>
      match dataOpt with
      | some d =>
        Json.obj [("type", .str "image"),
          ("source", Json.obj [("type", .str "base64"),
            ("media_type", .str (media_type.getD "image/png")),
            ("data", .str d)])]
      | Option.none =>
        match url with
        | some u =>
          Json.obj [("type", .str "image"),
            ("source", Json.obj [("type", .str "url"), ("url", .str u)])]
        | Option.none => Json.obj [("type", .str "text"), ("text", .str "[image]")])

/-- Is the JSON block a `tool_result` block?  (helper mirroring the repeated
`block.get("type") == Some("tool_result")` checks in `anthropic.rs`). -/
def isToolResultBlock (b : Json) : Bool :=
  (b.getField "type").bind Json.asStr = some "tool_result"

/-- Embeds the per-message step of `AnthropicCodec::decode_request`'s loop. -/
def anthropicDecodeMessageStep (acc : List IrMessage) (msg : AnthropicMessage) :
    List IrMessage :=
  if msg.role = "user" ∨ msg.role = "assistant" then
    let ct := anthropic_content_to_ir msg.content
    if msg.role = "user" then
      match msg.content with
      | .arr blocks =>
        let toolMsgs : List IrMessage := blocks.filterMap (fun block =>
          if isToolResultBlock block then
            some {
              role := .tool
              content := .text (((block.getField "content").map (fun c =>
                  match c with
                  | .str s => s
                  | other => other.render)).getD "")
              tool_calls := Option.none
              tool_call_id := some (((block.getField "tool_use_id").bind Json.asStr).getD "")
              name := Option.none }
          else Option.none)
        let has_non_tool := blocks.any (fun b => ¬ isToolResultBlock b)
        if has_non_tool then
          acc ++ toolMsgs ++ [{ role := .user, content := ct.1 }]
        else
          acc ++ toolMsgs
      | _ =>
        acc ++ [{ role := .user, content := ct.1, tool_calls := ct.2 }]
    else
      acc ++ [{ role := .assistant, content := ct.1, tool_calls := ct.2 }]
  else
    acc

/-- Embeds `AnthropicCodec::decode_request` at the wire-struct level. -/
def anthropic_decode_request (req : AnthropicRequest) : IrChatRequest :=
  { model := req.model
    messages := req.messages.foldl anthropicDecodeMessageStep []
    system := req.system.map (fun s =>
      match s with
      | .str text => text
      | .arr blocks => String.join (blocks.filterMap (fun b =>
          if (b.getField "type").bind Json.asStr = some "text" then
            (b.getField "text").bind Json.asStr
          else Option.none))
      | other => other.render)
    temperature := req.temperature
    top_p := req.top_p
    max_tokens := some req.max_tokens
    stream := req.stream.getD false
    stop := req.stop_sequences
    tools := req.tools.map (fun ts => ts.map (fun t =>
      { name := t.name, description := t.description, parameters := t.input_schema }))
    tool_choice := req.tool_choice.map (fun tc =>
      if tc.choice_type = "auto" then .auto
      else if tc.choice_type = "any" then .any
      else if tc.choice_type = "tool" then .tool (tc.name.getD "")
      else .auto) }

/-- Embeds `AnthropicCodec::decode_response`. -/
def anthropic_decode_response (resp : AnthropicResponse) : IrChatResponse :=
  let tp := resp.content.foldl (fun acc block =>
    match block with
    | .text text => (acc.1 ++ [text], acc.2)
    | .toolUse id name input =>
      (acc.1, acc.2 ++ [{ id := id, name := name, arguments := input.render : IrToolCall }]))
    (([], []) : List String × List IrToolCall)
  { id := resp.id
    model := resp.model
    message :=
      { role := .assistant
        content := .text (String.join tp.1)
        tool_calls := if tp.2.isEmpty then Option.none else some tp.2 }
    finish_reason := anthropic_stop_to_ir resp.stop_reason
    usage := resp.usage.map (fun u =>
      { prompt_tokens := u.input_tokens
        completion_tokens := u.output_tokens
        total_tokens := some (u.input_tokens + u.output_tokens) }) }

/-- Embeds the content blocks built for an Assistant message inside
`AnthropicCodec::encode_request` (text/image blocks, then tool_use blocks,
then the empty-text fallback).  `parseJson` stands for `serde_json::from_str`
on the tool-call arguments string. -/
def anthropicAssistantBlocks (parseJson : String → Option Json) (msg : IrMessage) :
    List Json :=
  let content_blocks := ir_content_to_anthropic msg.content
  let content_blocks := content_blocks ++
    (match msg.tool_calls with
     | some tcs => tcs.map (fun tc =>
        Json.obj [("type", .str "tool_use"), ("id", .str tc.id), ("name", .str tc.name),
                  ("input", (parseJson tc.arguments).getD (Json.obj []))])
     | Option.none => [])
  if content_blocks.isEmpty then
    [Json.obj [("type", .str "text"), ("text", .str "")]]
  else
    content_blocks

/-- Embeds the Tool-message merge logic of `AnthropicCodec::encode_request`:
append the tool_result block to the previous user message when every block of
that message is itself a tool_result, otherwise open a new user message. -/
def anthropicPushToolResult (acc : List AnthropicMessage) (block : Json) :
    List AnthropicMessage :=
  let fresh : AnthropicMessage := { role := "user", content := .arr [block] }
  match acc.getLast? with
  | some last =>
    if last.role = "user" then
      match last.content with
      | .arr arrv =>
        if arrv.all isToolResultBlock then
          acc.dropLast ++ [{ last with content := .arr (arrv ++ [block]) }]
        else acc ++ [fresh]
      | _ => acc ++ [fresh]
    else acc ++ [fresh]
  | Option.none => acc ++ [fresh]

/-- Embeds the message loop of `AnthropicCodec::encode_request`. -/
def anthropicEncodeMessageStep (parseJson : String → Option Json)
    (acc : List AnthropicMessage) (msg : IrMessage) : List AnthropicMessage :=
  match msg.role with
  | .system => acc
  | .user =>
    acc ++ [{ role := "user", content := .arr (ir_content_to_anthropic msg.content) }]
  | .assistant =>
    acc ++ [{ role := "assistant", content := .arr (anthropicAssistantBlocks parseJson msg) }]
  | .tool =>
    let block := Json.obj [("type", .str "tool_result"),
      ("tool_use_id", .str (msg.tool_call_id.getD "")),
      ("content", .str msg.content.to_text)]
    anthropicPushToolResult acc block

/-- Embeds `AnthropicCodec::encode_request`.  `parseJson` stands for
`serde_json::from_str` on tool-call arguments strings. -/
def anthropic_encode_request (parseJson : String → Option Json)
    (ir : IrChatRequest) (model : String) : AnthropicRequest :=
  { model := model
    messages := ir.messages.foldl (anthropicEncodeMessageStep parseJson) []
    max_tokens := ir.max_tokens.getD 4096
    system := ir.system.map (fun s => Json.str s)
    temperature := ir.temperature
    top_p := ir.top_p
    stop_sequences := ir.stop
    stream := if ir.stream then some true else Option.none
    tools := ir.tools.map (fun ts => ts.map (fun t =>
      { name := t.name, description := t.description, input_schema := t.parameters }))
    tool_choice := ir.tool_choice.map (fun tc =>
      match tc with
      | .auto => { choice_type := "auto" }
      | .choiceNone => { choice_type := "auto" }
      | .any => { choice_type := "any" }
      | .tool n => { choice_type := "tool", name := some n }) }

/-- Embeds `AnthropicCodec::encode_response`. -/
def anthropic_encode_response (parseJson : String → Option Json)
    (ir : IrChatResponse) : AnthropicResponse :=
  let text := ir.message.content.to_text
  let content : List AnthropicContentBlock :=
    (if ¬ text.isEmpty then [.text text] else []) ++
    (match ir.message.tool_calls with
     | some tcs => tcs.map (fun tc =>
        AnthropicContentBlock.toolUse tc.id tc.name ((parseJson tc.arguments).getD (Json.obj [])))
     | Option.none => [])
  let content := if content.isEmpty then [AnthropicContentBlock.text ""] else content
  { id := ir.id
    resp_type := "message"
    role := "assistant"
    content := content
    model := ir.model
    stop_reason := ir_finish_to_anthropic ir.finish_reason
    usage := ir.usage.map (fun u =>
      { input_tokens := u.prompt_tokens, output_tokens := u.completion_tokens }) }

-- ===========================================================================
-- Gemini codec (modality/chat/gemini.rs)
-- ===========================================================================

/-- Embeds `GeminiInlineData`. -/
structure GeminiInlineData where
  mime_type : String
  data : String
deriving DecidableEq, Repr

/-- Embeds `GeminiFunctionCall`. -/
structure GeminiFunctionCall where
  name : String
  args : Json
deriving Repr

/-- Embeds `GeminiFunctionResponse`. -/
structure GeminiFunctionResponse where
  name : String
  response : Json
deriving Repr

/-- Embeds `GeminiPart`. -/
structure GeminiPart where
  text : Option String := Option.none
  inline_data : Option GeminiInlineData := Option.none
  function_call : Option GeminiFunctionCall := Option.none
  function_response : Option GeminiFunctionResponse := Option.none
deriving Repr

/-- Embeds `GeminiContent`. -/
structure GeminiContent where
  role : Option String
  parts : List GeminiPart
deriving Repr

/-- Embeds `GeminiSystemInstruction`. -/
structure GeminiSystemInstruction where
  parts : List GeminiPart
deriving Repr

/-- Embeds `GeminiGenerationConfig`. -/
structure GeminiGenerationConfig where
  temperature : Option Rat := Option.none
  top_p : Option Rat := Option.none
  max_output_tokens : Option Nat := Option.none
  stop_sequences : Option (List String) := Option.none
deriving DecidableEq, Repr

/-- Embeds `GeminiFunctionDeclaration`. -/
structure GeminiFunctionDeclaration where
  name : String
  description : Option String := Option.none
  parameters : Option Json := Option.none
deriving Repr

/-- Embeds `GeminiToolDeclaration`. -/
structure GeminiToolDeclaration where
  function_declarations : List GeminiFunctionDeclaration
deriving Repr

/-- Embeds `GeminiFunctionCallingConfig`. -/
structure GeminiFunctionCallingConfig where
  mode : String
  allowed_function_names : Option (List String) := Option.none
deriving DecidableEq, Repr

/-- Embeds `GeminiToolConfig`. -/
structure GeminiToolConfig where
  function_calling_config : GeminiFunctionCallingConfig
deriving DecidableEq, Repr

/-- Embeds `GeminiRequest`. -/
structure GeminiRequest where
  contents : List GeminiContent
  system_instruction : Option GeminiSystemInstruction := Option.none
  generation_config : Option GeminiGenerationConfig := Option.none
  tools : Option (List GeminiToolDeclaration) := Option.none
  tool_config : Option GeminiToolConfig := Option.none
deriving Repr

/-- Embeds `GeminiCandidate`. -/
structure GeminiCandidate where
  content : GeminiContent
  finish_reason : Option String := Option.none
deriving Repr

/-- Embeds `GeminiUsageMetadata`. -/
structure GeminiUsageMetadata where
  prompt_token_count : Nat := 0
  candidates_token_count : Nat := 0
  total_token_count : Nat := 0
deriving DecidableEq, Repr

/-- Embeds `GeminiResponse`. -/
structure GeminiResponse where
  candidates : List GeminiCandidate := []
  usage_metadata : Option GeminiUsageMetadata := Option.none
deriving Repr

/-- Embeds `gemini_role_to_ir`. -/
def gemini_role_to_ir (role : String) : IrRole :=
  if role = "model" then .assistant else .user

/-- Embeds `ir_role_to_gemini`. -/
def ir_role_to_gemini : IrRole → String
  | .user => "user"
  | .assistant => "model"
  | .system => "user"
  | .tool => "user"

/-- Embeds `gemini_finish_to_ir`. -/
def gemini_finish_to_ir (reason : Option String) : Option IrFinishReason :=
  reason.map (fun r =>
    if r = "STOP" then .stop
    else if r = "MAX_TOKENS" then .length
    else if r = "SAFETY" then .contentFilter
    else if r = "RECITATION" then .contentFilter
    else .stop)

/-- Embeds `ir_finish_to_gemini`. -/
def ir_finish_to_gemini (reason : Option IrFinishReason) : Option String :=
  reason.map (fun r =>
    match r with
    | .stop => "STOP"
    | .length => "MAX_TOKENS"
    | .toolCalls => "STOP"
    | .contentFilter => "SAFETY")

/-- Embeds `gemini_parts_to_ir`: collect text fragments and functionCall parts
(the latter getting synthesized ids `call_<i>` from the part index). -/
def gemini_parts_to_ir (parts : List GeminiPart) : IrContent × Option (List IrToolCall) :=
  let step := parts.enum.foldl (fun (acc : List String × List IrToolCall) ip =>
    let acc := match ip.2.text with
      | some t => (acc.1 ++ [t], acc.2)
      | Option.none => acc
    match ip.2.function_call with
    | some fc =>
      (acc.1, acc.2 ++ [{ id := "call_" ++ toString ip.1, name := fc.name,
                          arguments := fc.args.render }])
    | Option.none => acc) ([], [])
  let content : IrContent :=
    match step.1 with
    | [t] => .text t
    | [] => .text ""
    | ts => .text (String.join ts)
  (content, if step.2.isEmpty then Option.none else some step.2)

/-- Embeds `ir_content_to_gemini_parts`. -/
def ir_content_to_gemini_parts : IrContent → List GeminiPart
  | .text s => if s.isEmpty then [] else [{ text := some s }]
  | .parts ps => ps.map (fun p =>
    match p with
    | .text t => { text := some t }
    | .image _ media_type dataOpt =>
      match dataOpt with
      | some d =>
        { inline_data := some { mime_type := media_type.getD "image/png", data := d } }
      | Option.none => { text := some "[image]" })

/-- Embeds the per-content step of `GeminiCodec::decode_request`'s loop. -/
def geminiDecodeContentStep (acc : List IrMessage) (content : GeminiContent) :
    List IrMessage :=
  let role_str := content.role.getD "user"
  let has_function_response := content.parts.any (fun p => p.function_response.isSome)
  if has_function_response then
    acc ++ content.parts.filterMap (fun part =>
      part.function_response.map (fun fr =>
        { role := .tool
          content := .text fr.response.render
          tool_calls := Option.none
          tool_call_id := Option.none
          name := some fr.name : IrMessage }))
  else
    let ct := gemini_parts_to_ir content.parts
    acc ++ [{ role := gemini_role_to_ir role_str, content := ct.1, tool_calls := ct.2 }]

/-- Embeds `GeminiCodec::decode_request` at the wire-struct level. -/
def gemini_decode_request (req : GeminiRequest) : IrChatRequest :=
  let messages := req.contents.foldl geminiDecodeContentStep []
  let gen := req.generation_config
  { model := ""
    messages := messages
    system := req.system_instruction.map (fun si =>
      String.join (si.parts.filterMap (fun p => p.text)))
    temperature := gen.bind (fun g => g.temperature)
    top_p := gen.bind (fun g => g.top_p)
    max_tokens := gen.bind (fun g => g.max_output_tokens)
    stream := false
    stop := gen.bind (fun g => g.stop_sequences)
    tools := req.tools.map (fun ts => ts.flatMap (fun t =>
      t.function_declarations.map (fun fd =>
        { name := fd.name, description := fd.description,
          parameters := fd.parameters.getD (Json.obj []) })))
    tool_choice := req.tool_config.map (fun tc =>
      let mode := tc.function_calling_config.mode
      if mode = "NONE" then .choiceNone
      else if mode = "ANY" then
        match tc.function_calling_config.allowed_function_names with
        | some [n] => .tool n
        | _ => .any
      else .auto) }

/-- Embeds `GeminiCodec::decode_response`. -/
def gemini_decode_response (resp : GeminiResponse) : Except AppError IrChatResponse :=
  match resp.candidates.head? with
  | Option.none => .error (.Codec "No candidates in Gemini response")
  | some candidate =>
    let ct := gemini_parts_to_ir candidate.content.parts
    let finish_reason :=
      if ct.2.isSome then some IrFinishReason.toolCalls
      else gemini_finish_to_ir candidate.finish_reason
    .ok
      { id := ""
        model := ""
        message := { role := .assistant, content := ct.1, tool_calls := ct.2 }
        finish_reason := finish_reason
        usage := resp.usage_metadata.map (fun u =>
          { prompt_tokens := u.prompt_token_count
            completion_tokens := u.candidates_token_count
            total_tokens := some u.total_token_count }) }

/-- Embeds the per-message step of `GeminiCodec::encode_request`'s loop. -/
def geminiEncodeContentStep (parseJson : String → Option Json)
    (acc : List GeminiContent) (msg : IrMessage) : List GeminiContent :=
  match msg.role with
  | .system => acc
  | .user =>
    let parts := ir_content_to_gemini_parts msg.content
    if ¬ parts.isEmpty then acc ++ [{ role := some "user", parts := parts : GeminiContent }]
    else acc
  | .assistant =>
    let parts := ir_content_to_gemini_parts msg.content ++
      (match msg.tool_calls with
       | some tcs => tcs.map (fun tc =>
          let fc : GeminiFunctionCall :=
            { name := tc.name, args := (parseJson tc.arguments).getD (Json.obj []) }
          ({ function_call := some fc } : GeminiPart))
       | Option.none => [])
    if ¬ parts.isEmpty then acc ++ [{ role := some "model", parts := parts : GeminiContent }]
    else acc
  | .tool =>
    let response_value := (parseJson msg.content.to_text).getD
      (Json.obj [("result", .str msg.content.to_text)])
    let func_name := msg.name.getD "unknown"
    let fr : GeminiFunctionResponse := { name := func_name, response := response_value }
    let part : GeminiPart := { function_response := some fr }
    acc ++ [{ role := some "user", parts := [part] : GeminiContent }]

/-- Embeds `GeminiCodec::encode_request`.  `parseJson` stands for
`serde_json::from_str` on tool-call argument / tool-result strings. -/
def gemini_encode_request (parseJson : String → Option Json)
    (ir : IrChatRequest) (_model : String) : GeminiRequest :=
  let contents := ir.messages.foldl (geminiEncodeContentStep parseJson) []
  { contents := contents
    system_instruction := ir.system.map (fun s => { parts := [{ text := some s }] })
    generation_config :=
      if ir.temperature.isSome ∨ ir.top_p.isSome ∨ ir.max_tokens.isSome ∨ ir.stop.isSome then
        some { temperature := ir.temperature, top_p := ir.top_p,
               max_output_tokens := ir.max_tokens, stop_sequences := ir.stop }
      else Option.none
    tools := ir.tools.map (fun ts =>
      [{ function_declarations := ts.map (fun t =>
          { name := t.name, description := t.description, parameters := some t.parameters }) }])
    tool_config := ir.tool_choice.map (fun tc =>
      let ma : String × Option (List String) :=
        match tc with
        | .auto => ("AUTO", Option.none)
        | .choiceNone => ("NONE", Option.none)
        | .any => ("ANY", Option.none)
        | .tool n => ("ANY", some [n])
      { function_calling_config := { mode := ma.1, allowed_function_names := ma.2 } }) }

/-- Embeds `GeminiCodec::is_stream_done` (always false: Gemini streams end only
when the connection closes). -/
def gemini_is_stream_done (_data : String) : Bool := false

/-- Embeds `GeminiCodec::stream_done_signal` (always `None`). -/
def gemini_stream_done_signal : Option String := Option.none

-- ===========================================================================
-- OpenAI Responses codec (modality/chat/openai_responses.rs)
-- ===========================================================================

/-- Embeds `OaiRespApiInputItem` (internally tagged by `type` on the wire). -/
inductive OaiRespApiInputItem where
  | message (role : String) (content : Json)
  | functionCall (id : Option String) (call_id : String) (name : String) (arguments : String)
  | functionCallOutput (call_id : String) (output : String)
deriving Repr

/-- Embeds `OaiRespApiInput`: a bare string or an array of typed items. -/
inductive OaiRespApiInput where
  | text (s : String)
  | items (xs : List OaiRespApiInputItem)
deriving Repr

/-- Embeds `OaiRespApiTool`. -/
structure OaiRespApiTool where
  tool_type : String
  name : Option String := Option.none
  description : Option String := Option.none
  parameters : Option Json := Option.none
deriving Repr

/-- Embeds `OaiRespApiRequest`. -/
structure OaiRespApiRequest where
  model : String
  input : OaiRespApiInput
  instructions : Option String := Option.none
  temperature : Option Rat := Option.none
  top_p : Option Rat := Option.none
  max_output_tokens : Option Nat := Option.none
  stream : Option Bool := Option.none
  tools : Option (List OaiRespApiTool) := Option.none
  tool_choice : Option Json := Option.none
deriving Repr

/-- Embeds `OaiRespApiContentPart` (`annots` is the wire key `annotations`). -/
inductive OaiRespApiContentPart where
  | outputText (text : String) (annots : Option (List Json))
deriving Repr

/-- Embeds `OaiRespApiOutputItem`. -/
inductive OaiRespApiOutputItem where
  | message (id : Option String) (role : String) (content : List OaiRespApiContentPart)
  | functionCall (id : Option String) (call_id : String) (name : String) (arguments : String)
deriving Repr

/-- Embeds `OaiRespApiUsage`. -/
structure OaiRespApiUsage where
  input_tokens : Nat
  output_tokens : Nat
  total_tokens : Nat
deriving DecidableEq, Repr

/-- Embeds `OaiRespApiResponse`. -/
structure OaiRespApiResponse where
  id : String
  object : String
  model : String
  output : List OaiRespApiOutputItem
  usage : Option OaiRespApiUsage := Option.none
  status : Option String := Option.none
deriving Repr

/-- Embeds `OaiRespApiStreamEvent` (`type` is serialized from `event_type`). -/
structure OaiRespApiStreamEvent where
  event_type : String
  response : Option OaiRespApiResponse := Option.none
  item : Option OaiRespApiOutputItem := Option.none
  part : Option OaiRespApiContentPart := Option.none
  delta : Option String := Option.none
  text : Option String := Option.none
  output_index : Option Nat := Option.none
  content_index : Option Nat := Option.none
  arguments : Option String := Option.none
  sequence_number : Option Nat := Option.none
deriving Repr

/-- Embeds `resp_content_to_ir`. -/
def resp_content_to_ir : Json → IrContent
  | .str s => .text s
  | .arr parts =>
    .parts (parts.filterMap (fun p =>
      match (p.getField "type").bind Json.asStr with
      | some "input_text" =>
        ((p.getField "text").bind Json.asStr).map (fun t => IrContentPart.text t)
      | some "text" =>
        ((p.getField "text").bind Json.asStr).map (fun t => IrContentPart.text t)
      | some "input_image" =>
        some (IrContentPart.image
          ((p.getField "image_url").bind Json.asStr)
          ((p.getField "media_type").bind Json.asStr)
          ((p.getField "data").bind Json.asStr))
      | _ => Option.none))
  | .null => .text ""
  | _ => .text ""

/-- Embeds `ir_content_to_resp_input`. -/
def ir_content_to_resp_input : IrContent → Json
  | .text s => .str s
  | .parts ps =>
    .arr (ps.map (fun p =>
      match p with
      | .text t => Json.obj [("type", .str "input_text"), ("text", .str t)]
      | .image url media_type dataOpt =>
        Json.obj ([("type", Json.str "input_image")] ++
          (match url with | some u => [("image_url", Json.str u)] | Option.none => []) ++
          (match dataOpt with | some d => [("data", Json.str d)] | Option.none => []) ++
          (match media_type with
           | some m => [("media_type", Json.str m)]
           | Option.none => []))))

/-- Embeds `resp_role_to_ir`. -/
def resp_role_to_ir (role : String) : IrRole :=
  if role = "system" then .system
  else if role = "assistant" then .assistant
  else if role = "tool" then .tool
  else .user

/-- Embeds `ir_role_to_resp`. -/
def ir_role_to_resp : IrRole → String
  | .system => "system"
  | .user => "user"
  | .assistant => "assistant"
  | .tool => "tool"

/-- Embeds `resp_status_to_ir_finish`. -/
def resp_status_to_ir_finish (status : Option String) : Option IrFinishReason :=
  status.map (fun s =>
    if s = "completed" then .stop
    else if s = "incomplete" ∨ s = "cancelled" then .length
    else if s = "failed" then .stop
    else .stop)

/-- Embeds `ir_finish_to_resp_status`. -/
def ir_finish_to_resp_status (reason : Option IrFinishReason) : String :=
  match reason with
  | some .length => "incomplete"
  | _ => "completed"

/-- Embeds `has_tool_calls_in_output`. -/
def has_tool_calls_in_output (output : List OaiRespApiOutputItem) : Bool :=
  output.any (fun item =>
    match item with
    | .functionCall _ _ _ _ => true
    | _ => false)

/-- Embeds `OpenAiResponsesCodec::decode_request` at the wire-struct level.
The byte-level preprocessing that injects `"type":"message"` into untyped
input items only affects parsing into the wire struct and is absorbed by the
serde layer that this embedding starts after. -/
def resp_decode_request (req : OaiRespApiRequest) : IrChatRequest :=
  let messages : List IrMessage :=
    match req.input with
    | .text text => [{ role := .user, content := .text text }]
    | .items items => items.map (fun item =>
      match item with
      | .message role content =>
        { role := resp_role_to_ir role, content := resp_content_to_ir content }
      | .functionCall _ call_id name arguments =>
        { role := .assistant
          content := .text ""
          tool_calls := some [{ id := call_id, name := name, arguments := arguments }] }
      | .functionCallOutput call_id output =>
        { role := .tool, content := .text output, tool_call_id := some call_id })
  { model := req.model
    messages := messages
    system := req.instructions
    temperature := req.temperature
    top_p := req.top_p
    max_tokens := req.max_output_tokens
    stream := req.stream.getD false
    stop := Option.none
    tools := req.tools.map (fun ts => ts.filterMap (fun t =>
      t.name.map (fun name =>
        { name := name, description := t.description,
          parameters := t.parameters.getD (Json.obj []) : IrTool })))
    tool_choice := req.tool_choice.bind (fun tc =>
      if tc.isString then
        match tc.asStr with
        | some "auto" => some .auto
        | some "none" => some .choiceNone
        | some "required" => some .any
        | _ => Option.none
      else
        ((tc.getField "name").bind Json.asStr).map (fun n => IrToolChoice.tool n)) }

/-- Embeds the output-item loop of `OpenAiResponsesCodec::decode_response`:
collect text fragments and tool calls, in order. -/
def respCollectOutput : List OaiRespApiOutputItem → List String × List IrToolCall
  | [] => ([], [])
  | .message _ _ content :: rest =>
    let r := respCollectOutput rest
    (content.map (fun part => match part with | .outputText text _ => text) ++ r.1, r.2)
  | .functionCall _ call_id name arguments :: rest =>
    let r := respCollectOutput rest
    (r.1, { id := call_id, name := name, arguments := arguments } :: r.2)

/-- Embeds `OpenAiResponsesCodec::decode_response`. -/
def resp_decode_response (resp : OaiRespApiResponse) : IrChatResponse :=
  let tp := respCollectOutput resp.output
  let finish_reason :=
    if ¬ tp.2.isEmpty then some IrFinishReason.toolCalls
    else resp_status_to_ir_finish resp.status
  { id := resp.id
    model := resp.model
    message :=
      { role := .assistant
        content := .text (String.join tp.1)
        tool_calls := if tp.2.isEmpty then Option.none else some tp.2 }
    finish_reason := finish_reason
    usage := resp.usage.map (fun u =>
      { prompt_tokens := u.input_tokens
        completion_tokens := u.output_tokens
        total_tokens := some u.total_tokens }) }

/-- Embeds the per-message step of `OpenAiResponsesCodec::encode_request_inner`. -/
def respEncodeItemStep (acc : List OaiRespApiInputItem) (msg : IrMessage) :
    List OaiRespApiInputItem :=
  match msg.role with
  | .system =>
    acc ++ [.message "user" (ir_content_to_resp_input msg.content)]
  | .user =>
    match msg.tool_calls with
    | some tcs => acc ++ tcs.map (fun tc =>
        OaiRespApiInputItem.functionCall Option.none tc.id tc.name tc.arguments)
    | Option.none =>
      acc ++ [.message (ir_role_to_resp msg.role) (ir_content_to_resp_input msg.content)]
  | .assistant =>
    match msg.tool_calls with
    | some tcs => acc ++ tcs.map (fun tc =>
        OaiRespApiInputItem.functionCall Option.none tc.id tc.name tc.arguments)
    | Option.none =>
      acc ++ [.message (ir_role_to_resp msg.role) (ir_content_to_resp_input msg.content)]
  | .tool =>
    acc ++ [.functionCallOutput (msg.tool_call_id.getD "") msg.content.to_text]

/-- Embeds `OpenAiResponsesCodec::encode_request_inner`. -/
def resp_encode_request (ir : IrChatRequest) (model : String) : OaiRespApiRequest :=
  let items : List OaiRespApiInputItem := ir.messages.foldl respEncodeItemStep []
  { model := model
    input := .items items
    instructions := ir.system
    temperature := ir.temperature
    top_p := ir.top_p
    max_output_tokens := ir.max_tokens
    stream := if ir.stream then some true else Option.none
    tools := ir.tools.map (fun ts => ts.map (fun t =>
      { tool_type := "function", name := some t.name,
        description := t.description, parameters := some t.parameters }))
    tool_choice := ir.tool_choice.map (fun tc =>
      match tc with
      | .auto => .str "auto"
      | .choiceNone => .str "none"
      | .any => .str "required"
      | .tool n => Json.obj [("type", .str "function"), ("name", .str n)]) }

-- ===========================================================================
-- OpenAI Responses stateful stream encoder (OpenAiResponsesEncoder)
-- ===========================================================================

/-- Embeds the accumulator state of `OpenAiResponsesEncoder`. -/
structure OpenAiResponsesEncoder where
  response_id : String := ""
  model : String := ""
  finish_reason : Option IrFinishReason := Option.none
  usage : Option IrUsage := Option.none
  accumulated_text : String := ""
  preamble_sent : Bool := false
  tool_call_output_indices : List Nat := []
deriving Repr

/-- Embeds `OpenAiResponsesEncoder::new`. -/
def OpenAiResponsesEncoder.new : OpenAiResponsesEncoder := {}

/-- Embeds the id/model/finish_reason/usage capture at the top of
`OpenAiResponsesEncoder::encode_stream_chunk`. -/
def respUpdateMeta (st : OpenAiResponsesEncoder) (chunk : IrStreamChunk) :
    OpenAiResponsesEncoder :=
  let st := if ¬ chunk.id.isEmpty then { st with response_id := chunk.id } else st
  let st := match chunk.model with
    | some m => if st.model.isEmpty then { st with model := m } else st
    | Option.none => st
  let st := match chunk.finish_reason with
    | some fr => { st with finish_reason := some fr }
    | Option.none => st
  match chunk.usage with
  | some u => { st with usage := some u }
  | Option.none => st

/-- Embeds the three preamble events emitted on the first role-bearing chunk
(`response.created`, `response.output_item.added`,
`response.content_part.added`). -/
def respPreambleEvents (st : OpenAiResponsesEncoder) : List OaiRespApiStreamEvent :=
  let created : OaiRespApiStreamEvent :=
    { event_type := "response.created"
      response := some { id := st.response_id, object := "response", model := st.model,
                         output := [], usage := Option.none,
                         status := some "in_progress" } }
  let item_added : OaiRespApiStreamEvent :=
    { event_type := "response.output_item.added"
      item := some (.message (some ("msg_" ++ st.response_id)) "assistant" [])
      output_index := some 0 }
  let part_added : OaiRespApiStreamEvent :=
    { event_type := "response.content_part.added"
      part := some (.outputText "" (some []))
      output_index := some 0
      content_index := some 0 }
  [created, item_added, part_added]

/-- Embeds the per-delta body of the tool-call loop in
`OpenAiResponsesEncoder::encode_stream_chunk`: a fresh tool call (id + name)
records its output index and emits `response.output_item.added`; an arguments
fragment emits `response.function_call_arguments.delta`. -/
def respToolDeltaStep (acc : OpenAiResponsesEncoder × List OaiRespApiStreamEvent)
    (tc : IrToolCallDelta) : OpenAiResponsesEncoder × List OaiRespApiStreamEvent :=
  let acc :=
    if tc.id.isSome ∧ tc.name.isSome then
      let fc_item : OaiRespApiOutputItem :=
        .functionCall (tc.id.map (fun i => "fc_" ++ i)) (tc.id.getD "") (tc.name.getD "") ""
      let item_added : OaiRespApiStreamEvent :=
        { event_type := "response.output_item.added"
          item := some fc_item
          output_index := some tc.index }
      ({ acc.1 with tool_call_output_indices :=
          acc.1.tool_call_output_indices ++ [tc.index] },
       acc.2 ++ [item_added])
    else acc
  match tc.arguments with
  | some args =>
    let args_delta : OaiRespApiStreamEvent :=
      { event_type := "response.function_call_arguments.delta"
        delta := some args
        output_index := some tc.index }
    (acc.1, acc.2 ++ [args_delta])
  | Option.none => acc

/-- Embeds `OpenAiResponsesEncoder::encode_stream_chunk`.  The Rust method
serializes each built event and returns them joined with a newline (`None`
when no event was built); this embedding returns the event list itself
together with the updated state. -/
def respEncodeStreamChunk (st : OpenAiResponsesEncoder) (chunk : IrStreamChunk) :
    OpenAiResponsesEncoder × List OaiRespApiStreamEvent :=
  let st := respUpdateMeta st chunk
  let pre : OpenAiResponsesEncoder × List OaiRespApiStreamEvent :=
    if chunk.delta_role.isSome ∧ ¬ st.preamble_sent then
      ({ st with preamble_sent := true }, respPreambleEvents st)
    else (st, [])
  let st := pre.1
  let events := pre.2
  let td : OpenAiResponsesEncoder × List OaiRespApiStreamEvent :=
    match chunk.delta_content with
    | some delta_text =>
      let text_delta : OaiRespApiStreamEvent :=
        { event_type := "response.output_text.delta"
          delta := some delta_text
          output_index := some 0
          content_index := some 0 }
      ({ st with accumulated_text := st.accumulated_text ++ delta_text },
       events ++ [text_delta])
    | Option.none => (st, events)
  (chunk.delta_tool_calls.getD []).foldl respToolDeltaStep (td.1, td.2)

/-- Embeds `OpenAiResponsesEncoder::stream_done_signal`: the trailing
`output_text.done` / `content_part.done` / `output_item.done` events, then one
`output_item.done` per recorded tool call, then `response.completed` (which is
always the final event and is always emitted). -/
def respStreamDoneSignal (st : OpenAiResponsesEncoder) :
    OpenAiResponsesEncoder × List OaiRespApiStreamEvent :=
  let has_text := ¬ st.accumulated_text.isEmpty
  let has_tool_calls := ¬ st.tool_call_output_indices.isEmpty
  let textEvents : List OaiRespApiStreamEvent :=
    if has_text then
      [{ event_type := "response.output_text.done"
         text := some st.accumulated_text
         output_index := some 0
         content_index := some 0 },
       { event_type := "response.content_part.done"
         part := some (.outputText st.accumulated_text (some []))
         output_index := some 0
         content_index := some 0 },
       { event_type := "response.output_item.done"
         item := some (.message (some ("msg_" ++ st.response_id)) "assistant"
           [.outputText st.accumulated_text (some [])])
         output_index := some 0 }]
    else []
  let toolEvents : List OaiRespApiStreamEvent :=
    if has_tool_calls then
      st.tool_call_output_indices.map (fun idx =>
        { event_type := "response.output_item.done"
          item := some (.functionCall Option.none "" "" "")
          output_index := some idx })
    else []
  let finish_reason := st.finish_reason
  let usage := st.usage
  let status := ir_finish_to_resp_status finish_reason
  let completed : OaiRespApiStreamEvent :=
    { event_type := "response.completed"
      response := some
        { id := st.response_id
          object := "response"
          model := st.model
          output := []
          usage := usage.map (fun u =>
            { input_tokens := u.prompt_tokens
              output_tokens := u.completion_tokens
              total_tokens := u.total_tokens.getD (u.prompt_tokens + u.completion_tokens) })
          status := some status } }
  ({ st with finish_reason := Option.none, usage := Option.none },
   textEvents ++ toolEvents ++ [completed])

-- ===========================================================================
-- Moonshot codec (modality/chat/moonshot.rs) — delegates to OpenAI Chat
-- ===========================================================================

/-- Embeds `MoonshotCodec::decode_request` (pure delegation). -/
def moonshot_decode_request (req : OaiRequest) : IrChatRequest :=
  oai_decode_request req

/-- Embeds `MoonshotCodec::encode_request` (pure delegation). -/
def moonshot_encode_request (ir : IrChatRequest) (model : String) : OaiRequest :=
  oai_encode_request ir model

/-- Embeds `MoonshotCodec::decode_response` (pure delegation). -/
def moonshot_decode_response (resp : OaiResponse) : Except AppError IrChatResponse :=
  oai_decode_response resp

-- ===========================================================================
-- Circuit breaker (routing/circuit.rs)
-- ===========================================================================

/-- Embeds `CircuitState`. -/
inductive CircuitState where
  | Closed | Open | HalfOpen
deriving DecidableEq, Repr

/-- Embeds `ChannelCircuit`.  `std::time::Instant` is modelled as a `Nat`
timestamp. -/
structure ChannelCircuit where
  consecutive_failures : Nat
  state : CircuitState
  last_failure : Option Nat
deriving DecidableEq, Repr

/-- Embeds `CircuitBreaker`; the mutex-guarded `HashMap` is an association
list with unique keys (lookup is by key, so representation order is
irrelevant). -/
structure CircuitBreaker where
  states : List (String × ChannelCircuit)
  failure_threshold : Nat
  cooldown : Nat
deriving DecidableEq, Repr

/-- Embeds `CircuitBreaker::new`. -/
def CircuitBreaker.new (failure_threshold : Nat) (cooldown_secs : Nat) : CircuitBreaker :=
  { states := [], failure_threshold := failure_threshold, cooldown := cooldown_secs }

/-- Map lookup (`states.get(channel_id)`). -/
def cbFind (states : List (String × ChannelCircuit)) (id : String) :
    Option ChannelCircuit :=
  (states.find? (fun p => p.1 = id)).map (·.2)

/-- Map update of an existing entry (`states.get_mut(channel_id)` followed by a
field assignment). -/
def cbUpdate (states : List (String × ChannelCircuit)) (id : String)
    (f : ChannelCircuit → ChannelCircuit) : List (String × ChannelCircuit) :=
  states.map (fun p => if p.1 = id then (p.1, f p.2) else p)

/-- Map insert-or-update (`states.entry(id).or_insert(default)` followed by
mutation). -/
def cbUpsert (states : List (String × ChannelCircuit)) (id : String)
    (default : ChannelCircuit) (f : ChannelCircuit → ChannelCircuit) :
    List (String × ChannelCircuit) :=
  if states.any (fun p => p.1 = id) then cbUpdate states id f
  else states ++ [(id, f default)]

/-- Embeds `CircuitBreaker::is_available`, with the current instant passed
explicitly.  Returns the (possibly mutated, for the lazy Open→HalfOpen
transition) breaker together with the availability flag.
`last_fail.elapsed()` is `now - last_fail` (truncated `Nat` subtraction;
`Instant` is monotone, so `now ≥ last_fail` on every real trace). -/
def CircuitBreaker.is_available (cb : CircuitBreaker) (channel_id : String) (now : Nat) :
    CircuitBreaker × Bool :=
  match cbFind cb.states channel_id with
  | Option.none => (cb, true)
  | some circuit =>
    match circuit.state with
    | .Closed => (cb, true)
    | .Open =>
      match circuit.last_failure with
      | some last_fail =>
        if now - last_fail ≥ cb.cooldown then
          let states := cbUpdate cb.states channel_id (fun c => { c with state := .HalfOpen })
          ({ cb with states := states }, true)
        else (cb, false)
      | Option.none => (cb, false)
    | .HalfOpen => (cb, true)

/-- Embeds `CircuitBreaker::record_success`. -/
def CircuitBreaker.record_success (cb : CircuitBreaker) (channel_id : String) :
    CircuitBreaker :=
  let states := cbUpdate cb.states channel_id
    (fun c => { c with consecutive_failures := 0, state := .Closed })
  { cb with states := states }

/-- Embeds `CircuitBreaker::record_failure`, with the current instant passed
explicitly. -/
def CircuitBreaker.record_failure (cb : CircuitBreaker) (channel_id : String) (now : Nat) :
    CircuitBreaker :=
  let states := cbUpsert cb.states channel_id
    { consecutive_failures := 0, state := .Closed, last_failure := Option.none }
    (fun c =>
      let c := { c with consecutive_failures := c.consecutive_failures + 1,
                        last_failure := some now }
      if c.consecutive_failures ≥ cb.failure_threshold then { c with state := .Open }
      else c)
  { cb with states := states }

-- ===========================================================================
-- Load balancer (routing/balancer.rs) and rules/mod.rs provider slugs
-- ===========================================================================

/-- Embeds `SYSTEM_RULES` from `rules/mod.rs`. -/
def SYSTEM_RULES : List (String × String) :=
  [("openai-chat", "OpenAI Chat Completions"),
   ("openai-responses", "OpenAI Responses"),
   ("anthropic", "Anthropic Messages"),
   ("gemini", "Gemini"),
   ("moonshot", "Moonshot (Kimi)")]

/-- Embeds `rules::is_system_rule_slug`. -/
def is_system_rule_slug (slug : String) : Bool :=
  SYSTEM_RULES.any (fun r => r.1 = slug)

/-- Embeds the `ChannelRow` query-result struct of `balancer.rs` (also standing
in for the channel part of `Channel` in the `SelectedChannel` result). -/
structure ChannelRow where
  id : String
  name : String
  provider : String
  base_url : String := ""
  priority : Int
  weight : Int
  enabled : Bool
  key_rotation : Bool := false
  rate_limit : Option String := Option.none
  created_at : String := ""
  updated_at : String := ""
deriving DecidableEq, Repr

/-- Embeds `ModelMapping` (`db/models.rs`). -/
structure ModelMapping where
  id : String
  public_name : String
  channel_id : String
  actual_name : String
  modality : String
deriving DecidableEq, Repr

/-- Embeds `SelectedChannel`. -/
structure SelectedChannel where
  channel : ChannelRow
  mapping : ModelMapping
  api_key : String
deriving DecidableEq, Repr

/-- Embeds the subtraction walk inside `weighted_random_select`:
`pick -= max(weight, 1); if pick < 0 return ch`.  Returns `none` when the walk
falls off the end of the list (the Rust code then falls back to
`channels.last().unwrap()`). -/
def wrsLoop (weight : α → Int) : List α → Int → Option α
  | [], _ => Option.none
  | ch :: rest, pick =>
    let pick := pick - max (weight ch) 1
    if pick < 0 then some ch else wrsLoop weight rest pick

/-- Embeds `weighted_random_select` / `weighted_random_select_channel` (the
two Rust monomorphizations are textually identical): a single-element list is
returned directly without consulting the RNG; otherwise the uniform draw
`draw ∈ [0, Σ max(weight,1))` supplied by the RNG drives the subtraction walk,
with `channels.last()` as the (unreachable for in-range draws) fallback. -/
def weighted_random_select (weight : α → Int) (channels : List α) (draw : Int) :
    Option α :=
  if channels.length = 1 then channels.head?
  else
    match wrsLoop weight channels draw with
    | some ch => some ch
    | Option.none => channels.getLast?

/-- Embeds the priority-grouping loop shared by `select_channel` and
`select_channel_passthrough` (contiguous runs of equal priority, in input
order). -/
def groupByPriority (rows : List ChannelRow) : List (Int × List ChannelRow) :=
  rows.foldl (fun groups row =>
    match groups.getLast? with
    | some g =>
      if g.1 = row.priority then groups.dropLast ++ [(g.1, g.2 ++ [row])]
      else groups ++ [(row.priority, [row])]
    | Option.none => [(row.priority, [row])]) []

/-- Embeds the priority-group loop of `select_channel_passthrough`: filter each
group by circuit availability, skip empty groups, weighted-select from the
first non-empty group, then fetch the first enabled API key.  At most one RNG
draw is consumed per call (the function returns as soon as a group has an
available candidate), so a single `draw` parameter models the RNG.  The
`Internal "unreachable"` branch corresponds to the Rust
`channels.last().unwrap()` panic path, which is unreachable for non-empty
input. -/
def tryGroupsPassthrough (model : String) (avail : String → Bool)
    (apiKey : String → Option String) (draw : Int) :
    List (Int × List ChannelRow) → Except AppError SelectedChannel
  | [] => .error (.AllChannelsFailed model)
  | (_, group) :: rest =>
    let available := group.filter (fun r => avail r.id)
    if available.isEmpty then
      tryGroupsPassthrough model avail apiKey draw rest
    else
      match weighted_random_select (fun r => r.weight) available draw with
      | Option.none => .error (.Internal "unreachable: empty candidate list")
      | some selected =>
        match apiKey selected.id with
        | Option.none =>
          .error (.Internal ("No API key for channel '" ++ selected.name ++ "'"))
        | some key =>
          .ok { channel := selected
                mapping := { id := "", public_name := model, channel_id := selected.id,
                             actual_name := model, modality := "chat" }
                api_key := key }

/-- Embeds `select_channel_passthrough`.  `rows` is the result of the SQL query
`SELECT … FROM channels WHERE enabled = 1 ORDER BY priority ASC` (all rows
enabled, sorted by priority ascending); `avail` is the circuit-breaker
availability snapshot (`circuit.is_available`), `apiKey` the per-channel
first-enabled-key lookup, `draw` the RNG draw.  `select_channel` delegates to
this function whenever the model-mapping join yields no rows. -/
def select_channel_passthrough (model : String) (rows : List ChannelRow)
    (avail : String → Bool) (apiKey : String → Option String) (draw : Int) :
    Except AppError SelectedChannel :=
  let channels := rows.filter (fun c => is_system_rule_slug c.provider)
  if channels.isEmpty then .error (.NoChannel model)
  else tryGroupsPassthrough model avail apiKey draw (groupByPriority channels)

-- ===========================================================================
-- SSE transducer (server/proxy.rs :: proxy_stream)
-- ===========================================================================

/-- Stream-decoder interface consumed by `proxy_stream` (the two `Decoder`
methods it calls). -/
structure StreamDecoderI where
  is_stream_done : String → Bool
  decode_stream_chunk : String → Except AppError (Option IrStreamChunk)

/-- Stream-encoder interface consumed by `proxy_stream`, with the encoder's
per-stream state `σ` made explicit (the OpenAI Responses encoder is stateful;
the others ignore `σ`). -/
structure StreamEncoderI (σ : Type) where
  encode_stream_chunk : σ → IrStreamChunk → σ × Except AppError (Option String)
  stream_done_signal : σ → σ × Option String

/-- State of the `proxy_stream` generator loop.  `out` is the list of SSE
frames yielded downstream; `doneSignalCalled` observes whether
`output_encoder.stream_done_signal()` was ever invoked (the property claim C7
is about).  The database log accumulator does not affect the emitted frames
and is omitted. -/
structure ProxyStreamState (σ : Type) where
  buffer : String
  stream_done : Bool
  encSt : σ
  out : List String
  doneSignalCalled : Bool

/-- Embeds Rust `str::lines` for the event-block case (split on `\n`, one
trailing empty line dropped; the blocks produced by the transducer contain no
`\r`). -/
def rustLines (s : String) : List String :=
  let ls := s.splitOn "\n"
  match ls.getLast? with
  | some "" => ls.dropLast
  | _ => ls

/-- Embeds the `data: `/`data:` prefix stripping (plus trim) of the
`proxy_stream` line loop; other lines are skipped (`none`). -/
def sseLineData (line : String) : Option String :=
  if line.startsWith "data: " then some ((line.drop 6).trim)
  else if line.startsWith "data:" then some ((line.drop 5).trim)
  else Option.none

/-- Embeds the per-line body of the `proxy_stream` event-block loop: strip the
`data: `/`data:` prefix (other lines are skipped), trim, check the terminal
sentinel (emitting the output encoder's done signal and breaking), otherwise
decode → re-encode → yield, with decode/encode failures logged and skipped. -/
def proxyProcessLines (dec : StreamDecoderI) (enc : StreamEncoderI σ) :
    List String → ProxyStreamState σ → ProxyStreamState σ
  | [], st => st
  | line :: rest, st =>
    if st.stream_done then st
    else
      match sseLineData line with
      | Option.none => proxyProcessLines dec enc rest st
      | some data =>
        if dec.is_stream_done data then
          let ds := enc.stream_done_signal st.encSt
          { st with
            encSt := ds.1
            doneSignalCalled := true
            out := st.out ++ (match ds.2 with
              | some done => ["data: " ++ done ++ "\n\n"]
              | Option.none => [])
            stream_done := true }
        else
          match dec.decode_stream_chunk data with
          | .ok (some ir_chunk) =>
            let ec := enc.encode_stream_chunk st.encSt ir_chunk
            let st := { st with encSt := ec.1 }
            match ec.2 with
            | .ok (some encoded) =>
              proxyProcessLines dec enc rest
                { st with out := st.out ++ ["data: " ++ encoded ++ "\n\n"] }
            | _ => proxyProcessLines dec enc rest st
          | _ => proxyProcessLines dec enc rest st

/-- Embeds the event-block loop of `proxy_stream` (one block per `\n\n`
delimiter occurrence), stopping at the terminal sentinel. -/
def proxyProcessBlocks (dec : StreamDecoderI) (enc : StreamEncoderI σ) :
    List String → ProxyStreamState σ → ProxyStreamState σ
  | [], st => st
  | block :: rest, st =>
    if st.stream_done then st
    else proxyProcessBlocks dec enc rest (proxyProcessLines dec enc (rustLines block) st)

/-- Embeds the outer byte-chunk loop of `proxy_stream`.  The repeated
`buffer.find("\n\n")` + drain is modelled by splitting the buffer on `\n\n`
once per chunk: the complete blocks are the non-final pieces and the leftover
tail stays in the buffer.  (When the terminal sentinel fires mid-buffer the
Rust loop leaves later blocks in the buffer; both versions stop emitting at
that point, so the emitted frames agree.) -/
def proxyStreamLoop (dec : StreamDecoderI) (enc : StreamEncoderI σ) :
    List String → ProxyStreamState σ → ProxyStreamState σ
  | [], st => st
  | c :: rest, st =>
    if st.stream_done then st
    else
      let buffer := st.buffer ++ c
      let parts := buffer.splitOn "\n\n"
      let st := { st with buffer := (parts.getLast?).getD "" }
      let st := proxyProcessBlocks dec enc parts.dropLast st
      proxyStreamLoop dec enc rest st

/-- Embeds the whole `proxy_stream` generator over a finite upstream byte-chunk
sequence (the upstream closing after the last chunk).  After the loop the Rust
code persists the log accumulator and finishes; it performs no further call to
`stream_done_signal`. -/
def proxy_stream_run (dec : StreamDecoderI) (enc : StreamEncoderI σ) (encSt0 : σ)
    (chunks : List String) : ProxyStreamState σ :=
  proxyStreamLoop dec enc chunks
    { buffer := "", stream_done := false, encSt := encSt0, out := [],
      doneSignalCalled := false }

/-- The Gemini upstream decoder as a `StreamDecoderI`, with the JSON parse of
`decode_stream_chunk` supplied as an oracle (C7 only depends on
`is_stream_done`, which is constant `false`). -/
def geminiStreamDecoder (parse : String → Except AppError (Option IrStreamChunk)) :
    StreamDecoderI :=
  { is_stream_done := gemini_is_stream_done
    decode_stream_chunk := parse }

-- ===========================================================================
-- Token expiry check (server/proxy.rs :: handle_route_proxy, lines 197-202)
-- ===========================================================================

/-- Lexicographic order on character lists. -/
def charListLt : List Char → List Char → Bool
  | [], [] => false
  | [], _ :: _ => true
  | _ :: _, [] => false
  | a :: as, b :: bs =>
    if a < b then true else if b < a then false else charListLt as bs

/-- Embeds Rust's `String` ordering (byte-wise lexicographic; identical to
code-point lexicographic order for valid UTF-8). -/
def strLt (a b : String) : Bool := charListLt a.data b.data

/-- Embeds the expiry guard of `handle_route_proxy`: with `expires_at` set and
lexicographically smaller than the rendered current time, the request fails
`Unauthorized("API key expired")`; otherwise it proceeds (`none`). -/
def check_token_expiry (expires_at : Option String) (now : String) : Option AppError :=
  match expires_at with
  | some expires =>
    if strLt expires now then some (.Unauthorized "API key expired") else Option.none
  | Option.none => Option.none

/-- A UTC wall-clock instant with whole-second precision (sub-second part
zero), for rendering comparisons. -/
structure UtcDateTime where
  year : Nat
  month : Nat
  day : Nat
  hour : Nat
  minute : Nat
  second : Nat
deriving DecidableEq, Repr

/-- Zero-padded two-digit rendering. -/
def pad2 (n : Nat) : String :=
  if n < 10 then "0" ++ toString n else toString n

/-- Zero-padded four-digit rendering. -/
def pad4 (n : Nat) : String :=
  if n < 10 then "000" ++ toString n
  else if n < 100 then "00" ++ toString n
  else if n < 1000 then "0" ++ toString n
  else toString n

/-- Modelled from chrono: `NaiveDateTime`'s `Display` rendering
(`YYYY-MM-DD HH:MM:SS` for a zero sub-second part) — this is the string the
code compares against (`chrono::Utc::now().naive_utc().to_string()`). -/
def naiveUtcString (dt : UtcDateTime) : String :=
  pad4 dt.year ++ "-" ++ pad2 dt.month ++ "-" ++ pad2 dt.day ++ " " ++
  pad2 dt.hour ++ ":" ++ pad2 dt.minute ++ ":" ++ pad2 dt.second

/-- Modelled from chrono: `DateTime<Utc>::to_rfc3339` rendering
(`YYYY-MM-DDTHH:MM:SS+00:00` for a zero sub-second part) — this is the
rendering the spec sentence describes (RFC-3339 UTC). -/
def rfc3339UtcString (dt : UtcDateTime) : String :=
  pad4 dt.year ++ "-" ++ pad2 dt.month ++ "-" ++ pad2 dt.day ++ "T" ++
  pad2 dt.hour ++ ":" ++ pad2 dt.minute ++ ":" ++ pad2 dt.second ++ "+00:00"

-- ===========================================================================
-- Derived runs and spec-side characterizations used by the claim statements
-- ===========================================================================

/-- The full emitted event sequence of one streaming exchange through the
stateful OpenAI Responses encoder: every `encode_stream_chunk` output in
order, followed by the single `stream_done_signal` output. -/
def runRespEncoder (chunks : List IrStreamChunk) : List OaiRespApiStreamEvent :=
  let step := chunks.foldl
    (fun (acc : OpenAiResponsesEncoder × List OaiRespApiStreamEvent) c =>
      let r := respEncodeStreamChunk acc.1 c
      (r.1, acc.2 ++ r.2))
    (OpenAiResponsesEncoder.new, [])
  step.2 ++ (respStreamDoneSignal step.1).2

/-- Is this stream event the terminal `response.completed` event? -/
def isCompletedEvent (e : OaiRespApiStreamEvent) : Bool :=
  e.event_type = "response.completed"

/-- Total effective weight `Σ max(weight, 1)` of a candidate list. -/
def totalWeight (weight : α → Int) (channels : List α) : Int :=
  (channels.map (fun c => max (weight c) 1)).sum

/-- Simple requests for the round-trip claim: every message is a User or
Assistant message with non-empty plain-text content and no tool calls. -/
def simpleMsg (m : IrMessage) : Prop :=
  (m.role = .user ∨ m.role = .assistant) ∧ m.tool_calls = Option.none ∧
  ∃ s, m.content = .text s ∧ s ≠ ""

/-- Comparison predicate for the round-trip claim, following the
specification's list of preserved fields other than `model` and `max_tokens`
(which are stated per codec): the decoded request agrees with the original on
`system`, `temperature`, `top_p`, every message's role and every message's
`to_text` rendering. -/
def roundTripAgrees (ir dec : IrChatRequest) : Prop :=
  dec.system = ir.system ∧ dec.temperature = ir.temperature ∧ dec.top_p = ir.top_p ∧
  dec.messages.map (fun m => m.role) = ir.messages.map (fun m => m.role) ∧
  dec.messages.map (fun m => m.content.to_text) =
    ir.messages.map (fun m => m.content.to_text)

-- ===========================================================================
-- Concrete inputs used by counterexamples and witnesses
-- ===========================================================================

/-- A minimal IR request with a named model and one user message. -/
def irEx : IrChatRequest :=
  { model := "m", messages := [{ role := .user, content := .text "Hi" }] }

/-- An OpenAI Chat wire response carrying one tool call but wire finish reason
`"stop"`. -/
def oaiRespToolStop : OaiResponse :=
  let fn : OaiFunction := { name := "f", arguments := "\x7b\x7d" }
  let tc : OaiToolCall := { id := "call_1", call_type := "function", function := fn }
  let msg : OaiMessage := { role := "assistant", tool_calls := some [tc] }
  { id := "r1", object := "chat.completion", model := "m",
    choices := [{ index := 0, message := msg, finish_reason := some "stop" }] }

/-- An OpenAI Chat wire request with two system messages and a user message. -/
def oaiReqTwoSystems : OaiRequest :=
  { model := "m",
    messages := [{ role := "system", content := some (.str "A") },
                 { role := "system", content := some (.str "B") },
                 { role := "user", content := some (.str "C") }] }

/-- The IR example request with a system prompt attached. -/
def irExSys : IrChatRequest := { irEx with system := some "S" }

/-- An enabled channel row with a recognized provider slug. -/
def chRow1 : ChannelRow :=
  { id := "ch1", name := "primary", provider := "openai-chat",
    priority := 0, weight := 1, enabled := true }

/-- The concrete instant 2026-10-12 23:00:00 UTC. -/
def dtEx : UtcDateTime :=
  { year := 2026, month := 10, day := 12, hour := 23, minute := 0, second := 0 }

/-- An `expires_at` value on the same calendar day as `dtEx` but 23 hours in
its past (stored, like the other timestamps in the database, in RFC-3339). -/
def expiresEx : String := "2026-10-12T00:00:01Z"

/-- A Gemini part holding one functionCall. -/
def geminiPartFc : GeminiPart :=
  { function_call := some { name := "f", args := .obj [] } }

/-- A Gemini candidate carrying one functionCall part and no finish reason. -/
def geminiCandTool : GeminiCandidate :=
  { content := { role := some "model", parts := [geminiPartFc] } }

/-- A Gemini wire response whose single candidate carries one functionCall
part, with no wire finish reason. -/
def geminiRespTool : GeminiResponse :=
  { candidates := [geminiCandTool] }

/-- An Anthropic wire response carrying one `tool_use` block with stop reason
`end_turn`. -/
def anthropicRespTool : AnthropicResponse :=
  { id := "a", resp_type := "message", role := "assistant",
    content := [.toolUse "t1" "f" (.obj [])], model := "m",
    stop_reason := some "end_turn" }

/-- A minimal stateless output encoder with a non-null done signal, used to
instantiate the transducer theorems at a concrete input (any encoder whose
`stream_done_signal` is non-null exhibits the missing-flush behavior; the
OpenAI Chat encoder's done signal is `"[DONE]"`). -/
def doneOnlyStreamEncoder : StreamEncoderI Unit :=
  { encode_stream_chunk := fun s _ => (s, .ok Option.none)
    stream_done_signal := fun s => (s, oai_stream_done_signal) }

/-- `k` consecutive `record_failure(id)` calls, the `j`-th at instant `ts j`,
with no intervening `record_success`. -/
def iterFailures (cb : CircuitBreaker) (id : String) (ts : Nat → Nat) : Nat → CircuitBreaker
  | 0 => cb
  | k + 1 => (iterFailures cb id ts k).record_failure id (ts k)

-- ===========================================================================
-- Theorems
-- ===========================================================================

-- Helper lemmas (shared; not tied to a single claim) -------------------------

/-- The tool-call list collected from a Responses output is empty exactly when
the output carries no `function_call` item. -/
theorem respCollectOutput_snd_isEmpty (items : List OaiRespApiOutputItem) :
    (respCollectOutput items).2.isEmpty = ¬ (has_tool_calls_in_output items = true) := by
  induction items with
  | nil => simp [respCollectOutput, has_tool_calls_in_output]
  | cons hd tl ih =>
    cases hd with
    | message i r c =>
      simp [respCollectOutput, has_tool_calls_in_output] at *
      exact ih
    | functionCall i cid n args =>
      simp [respCollectOutput, has_tool_calls_in_output]

-- C2 -------------------------------------------------------------------------

/-- Claim C2 counterexample: the OpenAI Chat decoder maps the wire finish
reason directly; on a wire response carrying one tool call but
`finish_reason:"stop"` it yields `Stop`, not `ToolCalls`, refuting the
codec-wide override. -/
theorem c2_counterexample :
    (oai_decode_response oaiRespToolStop).map (fun r => r.finish_reason) =
      .ok (some .stop) ∧
    (oai_decode_response oaiRespToolStop).map (fun r => r.message.tool_calls.isSome) =
      .ok true := by
  constructor <;> rfl

/-- Claim C2, amended: the finish-reason override to `ToolCalls` on responses
carrying tool calls holds for the Gemini and OpenAI Responses decoders; the
OpenAI Chat (hence Moonshot) and Anthropic decoders instead map the wire-level
finish/stop reason directly, yielding `ToolCalls` only when the wire reason
itself is `tool_calls`/`tool_use`. -/
theorem c2_amended :
    (∀ resp : GeminiResponse, ∀ candidate rest,
       resp.candidates = candidate :: rest →
       (gemini_parts_to_ir candidate.content.parts).2.isSome = true →
       (gemini_decode_response resp).map (fun r => r.finish_reason) =
         .ok (some .toolCalls)) ∧
    (∀ resp : OaiRespApiResponse,
       has_tool_calls_in_output resp.output = true →
       (resp_decode_response resp).finish_reason = some .toolCalls) ∧
    (∀ resp : OaiResponse, ∀ choice rest, resp.choices = choice :: rest →
       (oai_decode_response resp).map (fun r => r.finish_reason) =
         .ok (oai_finish_to_ir choice.finish_reason)) ∧
    (∀ resp : AnthropicResponse,
       (anthropic_decode_response resp).finish_reason =
         anthropic_stop_to_ir resp.stop_reason) := by
  refine ⟨?_, ?_, ?_, ?_⟩
  · intro resp candidate rest hc htc
    unfold gemini_decode_response
    rw [hc]
    simp only [List.head?]
    rw [htc]
    rfl
  · intro resp h
    unfold resp_decode_response
    have := respCollectOutput_snd_isEmpty resp.output
    rw [h] at this
    simp only [eq_self_iff_true, not_true] at this
    simp [this]
  · intro resp choice rest h
    unfold oai_decode_response
    rw [h]
    rfl
  · intro resp
    rfl

/-- Witness for `c2_amended` at concrete inputs. -/
theorem c2_amended_witness :
    (gemini_decode_response geminiRespTool).map (fun r => r.finish_reason) =
      .ok (some .toolCalls) ∧
    (anthropic_decode_response anthropicRespTool).finish_reason = some .stop := by
  exact ⟨c2_amended.1 geminiRespTool geminiCandTool [] rfl rfl,
         c2_amended.2.2.2 anthropicRespTool⟩

-- C9 -------------------------------------------------------------------------

/-- Claim C9 counterexample: at the instant `dtEx`, `expiresEx` is
lexicographically below the RFC-3339 rendering of the current time (so the
claim demands `Unauthorized("API key expired")`), yet the guard proceeds,
because the code compares against chrono's naive rendering
(`YYYY-MM-DD HH:MM:SS`), which sorts below every same-day RFC-3339 timestamp
(space 0x20 vs `T` 0x54 at index 10). -/
theorem c9_counterexample :
    strLt expiresEx (rfc3339UtcString dtEx) = true ∧
    check_token_expiry (some expiresEx) (naiveUtcString dtEx) = Option.none := by
  constructor
  · decide
  · decide

/-- Claim C9, amended: the proxy fails with `Unauthorized("API key expired")`
exactly when `expires_at` is set and lexicographically less than the current
UTC time rendered in chrono's naive `YYYY-MM-DD HH:MM:SS` format (not
RFC-3339); an unset or not-lexicographically-smaller `expires_at` proceeds. -/
theorem c9_amended (dt : UtcDateTime) (e : String) :
    (check_token_expiry (some e) (naiveUtcString dt) =
        some (.Unauthorized "API key expired") ↔ strLt e (naiveUtcString dt) = true) ∧
    check_token_expiry Option.none (naiveUtcString dt) = Option.none := by
  constructor
  · unfold check_token_expiry
    by_cases h : strLt e (naiveUtcString dt) = true
    · simp [h]
    · simp [h]
  · rfl

/-- Witness for `c9_amended` at a concrete instant and expiry string. -/
theorem c9_amended_witness :
    (check_token_expiry (some "2020-01-01 00:00:00") (naiveUtcString dtEx) =
      some (.Unauthorized "API key expired")) ∧
    check_token_expiry Option.none (naiveUtcString dtEx) = Option.none :=
  ⟨(c9_amended dtEx "2020-01-01 00:00:00").1.mpr (by decide),
   (c9_amended dtEx "2020-01-01 00:00:00").2⟩

-- C10 ------------------------------------------------------------------------

/-- An if-then-else guarded by `isEmpty` with a non-empty fallback is never
empty. -/
theorem ite_isEmpty_ne_nil {α : Type} (l d : List α) (hd : d ≠ []) :
    (if l.isEmpty = true then d else l) ≠ [] := by
  split
  · exact hd
  · next h =>
    intro heq
    rw [heq] at h
    simp at h

/-- Assistant content blocks are never empty (the empty-text fallback block is
inserted). -/
theorem anthropicAssistantBlocks_ne_nil (parseJson : String → Option Json)
    (msg : IrMessage) : anthropicAssistantBlocks parseJson msg ≠ [] := by
  unfold anthropicAssistantBlocks
  dsimp only
  apply ite_isEmpty_ne_nil
  simp

/-- The tool-result merge step only produces user-role wire messages beyond
those already in the accumulator. -/
theorem anthropicPushToolResult_mem (acc : List AnthropicMessage) (block : Json)
    (m : AnthropicMessage) (hm : m ∈ anthropicPushToolResult acc block) :
    m ∈ acc ∨ m.role = "user" := by
  unfold anthropicPushToolResult at hm
  cases hlast : acc.getLast? with
  | none =>
    rw [hlast] at hm
    rcases List.mem_append.1 hm with h | h
    · exact Or.inl h
    · simp at h; subst h; exact Or.inr rfl
  | some last =>
    rw [hlast] at hm
    by_cases hrole : last.role = "user"
    · simp only [hrole, if_true] at hm
      cases hcontent : last.content with
      | arr arrv =>
        rw [hcontent] at hm
        by_cases hall : arrv.all isToolResultBlock
        · simp only [hall, if_true] at hm
          rcases List.mem_append.1 hm with h | h
          · exact Or.inl (List.dropLast_subset _ h)
          · simp at h; subst h; exact Or.inr rfl
        · simp only [hall] at hm
          rcases List.mem_append.1 hm with h | h
          · exact Or.inl h
          · simp at h; subst h; exact Or.inr rfl
      | str s =>
        rw [hcontent] at hm
        rcases List.mem_append.1 hm with h | h
        · exact Or.inl h
        · simp at h; subst h; exact Or.inr rfl
      | null =>
        rw [hcontent] at hm
        rcases List.mem_append.1 hm with h | h
        · exact Or.inl h
        · simp at h; subst h; exact Or.inr rfl
      | bool b =>
        rw [hcontent] at hm
        rcases List.mem_append.1 hm with h | h
        · exact Or.inl h
        · simp at h; subst h; exact Or.inr rfl
      | num n =>
        rw [hcontent] at hm
        rcases List.mem_append.1 hm with h | h
        · exact Or.inl h
        · simp at h; subst h; exact Or.inr rfl
      | obj fs =>
        rw [hcontent] at hm
        rcases List.mem_append.1 hm with h | h
        · exact Or.inl h
        · simp at h; subst h; exact Or.inr rfl
    · simp only [hrole, if_false] at hm
      rcases List.mem_append.1 hm with h | h
      · exact Or.inl h
      · simp at h; subst h; exact Or.inr rfl

/-- Every assistant-role wire message produced by the Anthropic request
encoder has a non-empty content array (invariant over the message fold). -/
theorem anthropic_encode_fold_assistant_nonempty (parseJson : String → Option Json)
    (msgs : List IrMessage) (acc : List AnthropicMessage)
    (hacc : ∀ m ∈ acc, m.role = "assistant" →
      ∃ blocks, m.content = .arr blocks ∧ blocks ≠ []) :
    ∀ m ∈ msgs.foldl (anthropicEncodeMessageStep parseJson) acc,
      m.role = "assistant" → ∃ blocks, m.content = .arr blocks ∧ blocks ≠ [] := by
  induction msgs generalizing acc with
  | nil => exact hacc
  | cons hd tl ih =>
    intro m hm hrole
    refine ih (anthropicEncodeMessageStep parseJson acc hd) ?_ m hm hrole
    intro m2 hm2 hrole2
    unfold anthropicEncodeMessageStep at hm2
    cases hr : hd.role with
    | system =>
      rw [hr] at hm2
      exact hacc m2 hm2 hrole2
    | user =>
      rw [hr] at hm2
      rcases List.mem_append.1 hm2 with h | h
      · exact hacc m2 h hrole2
      · simp at h; subst h; simp at hrole2
    | assistant =>
      rw [hr] at hm2
      rcases List.mem_append.1 hm2 with h | h
      · exact hacc m2 h hrole2
      · simp at h; subst h
        exact ⟨anthropicAssistantBlocks parseJson hd, rfl,
               anthropicAssistantBlocks_ne_nil parseJson hd⟩
    | tool =>
      rw [hr] at hm2
      rcases anthropicPushToolResult_mem _ _ _ hm2 with h | h
      · exact hacc m2 h hrole2
      · rw [hrole2] at h; simp at h

/-- Claim C10: the Anthropic encoder never produces an assistant message with
an empty content array.  In `encode_request` every assistant wire message has
a non-empty content array, and an assistant IR message with empty content and
no tool calls gets exactly one `{type:"text",text:""}` block; likewise
`encode_response` always emits a non-empty content list, inserting a single
empty text block when the response message has empty text and no tool
calls. -/
theorem c10_anthropic_no_empty_assistant_content :
    (∀ parseJson (ir : IrChatRequest) model,
       ∀ m ∈ (anthropic_encode_request parseJson ir model).messages,
         m.role = "assistant" → ∃ blocks, m.content = .arr blocks ∧ blocks ≠ []) ∧
    (∀ parseJson (msg : IrMessage), msg.content.is_empty = true →
       msg.tool_calls = Option.none →
       anthropicAssistantBlocks parseJson msg =
         [Json.obj [("type", .str "text"), ("text", .str "")]]) ∧
    (∀ parseJson (ir : IrChatResponse),
       (anthropic_encode_response parseJson ir).content ≠ []) ∧
    (∀ parseJson (ir : IrChatResponse), ir.message.content.to_text = "" →
       ir.message.tool_calls = Option.none →
       (anthropic_encode_response parseJson ir).content = [.text ""]) := by
  refine ⟨?_, ?_, ?_, ?_⟩
  · intro parseJson ir model m hm hrole
    exact anthropic_encode_fold_assistant_nonempty parseJson ir.messages []
      (by intro m hm; simp at hm) m hm hrole
  · intro parseJson msg hempty htc
    have hblocks : ir_content_to_anthropic msg.content = [] := by
      cases hc : msg.content with
      | text s =>
        rw [hc] at hempty
        simp [IrContent.is_empty] at hempty
        simp [ir_content_to_anthropic, hempty]
      | parts ps =>
        rw [hc] at hempty
        simp [IrContent.is_empty] at hempty
        simp [ir_content_to_anthropic, hempty]
    unfold anthropicAssistantBlocks
    simp [htc, hblocks]
  · intro parseJson ir
    unfold anthropic_encode_response
    dsimp only
    apply ite_isEmpty_ne_nil
    simp
  · intro parseJson ir hempty htc
    unfold anthropic_encode_response
    rw [htc, hempty]
    rfl

-- C3 -------------------------------------------------------------------------

/-- The tool-delta step emits no `response.completed` event. -/
theorem respToolDeltaStep_countP (acc : OpenAiResponsesEncoder × List OaiRespApiStreamEvent)
    (tc : IrToolCallDelta) :
    ((respToolDeltaStep acc tc).2.countP isCompletedEvent) =
      acc.2.countP isCompletedEvent := by
  unfold respToolDeltaStep
  dsimp only
  by_cases h : tc.id.isSome = true ∧ tc.name.isSome = true
  · rw [if_pos h]
    cases tc.arguments <;>
      simp [List.countP_append, List.countP_cons, isCompletedEvent]
  · rw [if_neg h]
    cases tc.arguments <;>
      simp [List.countP_append, List.countP_cons, isCompletedEvent]

/-- The tool-delta loop emits no `response.completed` event. -/
theorem respToolFold_countP (tcs : List IrToolCallDelta)
    (acc : OpenAiResponsesEncoder × List OaiRespApiStreamEvent) :
    (((tcs.foldl respToolDeltaStep acc).2).countP isCompletedEvent) =
      acc.2.countP isCompletedEvent := by
  induction tcs generalizing acc with
  | nil => rfl
  | cons hd tl ih => rw [List.foldl_cons, ih, respToolDeltaStep_countP]

/-- `encode_stream_chunk` never emits `response.completed`. -/
theorem respEncodeStreamChunk_no_completed (st : OpenAiResponsesEncoder)
    (chunk : IrStreamChunk) :
    ((respEncodeStreamChunk st chunk).2.countP isCompletedEvent) = 0 := by
  unfold respEncodeStreamChunk
  dsimp only
  rw [respToolFold_countP]
  cases hdc : chunk.delta_content with
  | none =>
    dsimp only
    split
    · simp [respPreambleEvents, List.countP_cons, isCompletedEvent]
    · simp
  | some t =>
    dsimp only
    split
    · simp [respPreambleEvents, List.countP_append, List.countP_cons, isCompletedEvent]
    · simp [List.countP_append, List.countP_cons, isCompletedEvent]

/-- `stream_done_signal` emits `response.completed` exactly once. -/
theorem respStreamDoneSignal_countP (st : OpenAiResponsesEncoder) :
    ((respStreamDoneSignal st).2.countP isCompletedEvent) = 1 := by
  unfold respStreamDoneSignal
  dsimp only
  rw [List.countP_append, List.countP_append]
  have htool : ∀ (l : List Nat),
      ((l.map fun idx =>
        ({ event_type := "response.output_item.done",
           item := some (.functionCall Option.none "" "" ""),
           output_index := some idx } : OaiRespApiStreamEvent)).countP isCompletedEvent) = 0 := by
    intro l
    rw [List.countP_eq_zero]
    intro e he
    rcases List.mem_map.1 he with ⟨idx, _, rfl⟩
    simp [isCompletedEvent]
  split_ifs <;>
    simp [htool, List.countP_cons, isCompletedEvent]

/-- The last event of `stream_done_signal` is `response.completed`. -/
theorem respStreamDoneSignal_last (st : OpenAiResponsesEncoder) :
    ((respStreamDoneSignal st).2.getLast?.map (fun e => e.event_type)) =
      some "response.completed" := by
  unfold respStreamDoneSignal
  dsimp only
  rw [List.getLast?_concat]
  rfl

/-- The chunk loop of a streaming exchange emits no `response.completed`. -/
theorem runRespEncoder_fold_countP (chunks : List IrStreamChunk)
    (st : OpenAiResponsesEncoder) (evs : List OaiRespApiStreamEvent)
    (h : evs.countP isCompletedEvent = 0) :
    (((chunks.foldl
        (fun (acc : OpenAiResponsesEncoder × List OaiRespApiStreamEvent) c =>
          let r := respEncodeStreamChunk acc.1 c
          (r.1, acc.2 ++ r.2))
        (st, evs)).2).countP isCompletedEvent) = 0 := by
  induction chunks generalizing st evs with
  | nil => exact h
  | cons hd tl ih =>
    rw [List.foldl_cons]
    apply ih
    rw [List.countP_append, h, respEncodeStreamChunk_no_completed]

/-- Claim C3: over any streaming exchange (any finite chunk sequence followed
by exactly one `stream_done_signal`), `response.completed` appears exactly
once in the emitted output, as the final event, and only `stream_done_signal`
produces it (`encode_stream_chunk` never does). -/
theorem c3_responses_completed_exactly_once :
    (∀ st chunk, ((respEncodeStreamChunk st chunk).2.countP isCompletedEvent) = 0) ∧
    (∀ st, ((respStreamDoneSignal st).2.countP isCompletedEvent) = 1 ∧
      ((respStreamDoneSignal st).2.getLast?.map (fun e => e.event_type)) =
        some "response.completed") ∧
    (∀ chunks, ((runRespEncoder chunks).countP isCompletedEvent) = 1 ∧
      ((runRespEncoder chunks).getLast?.map (fun e => e.event_type)) =
        some "response.completed") := by
  refine ⟨respEncodeStreamChunk_no_completed,
          fun st => ⟨respStreamDoneSignal_countP st, respStreamDoneSignal_last st⟩,
          fun chunks => ⟨?_, ?_⟩⟩
  · unfold runRespEncoder
    dsimp only
    rw [List.countP_append,
        runRespEncoder_fold_countP chunks OpenAiResponsesEncoder.new [] (by rfl),
        respStreamDoneSignal_countP]
  · unfold runRespEncoder
    dsimp only
    have hne : (respStreamDoneSignal (chunks.foldl
        (fun (acc : OpenAiResponsesEncoder × List OaiRespApiStreamEvent) c =>
          let r := respEncodeStreamChunk acc.1 c
          (r.1, acc.2 ++ r.2))
        (OpenAiResponsesEncoder.new, [])).1).2 ≠ [] := by
      unfold respStreamDoneSignal
      dsimp only
      simp
    rw [List.getLast?_append_of_ne_nil _ hne]
    exact respStreamDoneSignal_last _

-- C5 -------------------------------------------------------------------------

/-- Effective weight of a cons cell. -/
theorem totalWeight_cons (weight : α → Int) (c : α) (l : List α) :
    totalWeight weight (c :: l) = max (weight c) 1 + totalWeight weight l := by
  simp [totalWeight]

/-- The subtraction walk of `weighted_random_select` lands on the first
candidate whose cumulative effective weight exceeds the draw. -/
theorem wrsLoop_spec (weight : α → Int) (channels : List α) (r : Int)
    (h0 : 0 ≤ r) (hr : r < totalWeight weight channels) :
    ∃ (i : Nat) (h : i < channels.length),
      wrsLoop weight channels r = some (channels.get ⟨i, h⟩) ∧
      totalWeight weight (channels.take i) ≤ r ∧
      r < totalWeight weight (channels.take (i + 1)) := by
  induction channels generalizing r with
  | nil =>
    exfalso
    simp [totalWeight] at hr
    omega
  | cons c rest ih =>
    by_cases hc : r - max (weight c) 1 < 0
    · refine ⟨0, by simp, ?_, ?_, ?_⟩
      · unfold wrsLoop
        simp [hc]
      · simp [totalWeight]
        exact h0
      · rw [List.take_succ_cons, List.take_zero, totalWeight_cons]
        simp [totalWeight]
        omega
    · push_neg at hc
      have hr2 : r - max (weight c) 1 < totalWeight weight rest := by
        rw [totalWeight_cons] at hr
        omega
      obtain ⟨i, h, heq, hlo, hhi⟩ := ih (r - max (weight c) 1) hc hr2
      refine ⟨i + 1, by simpa using Nat.succ_lt_succ h, ?_, ?_, ?_⟩
      · unfold wrsLoop
        have hnot : ¬ (r - max (weight c) 1 < 0) := by omega
        simp only [hnot, if_false]
        simpa using heq
      · rw [List.take_succ_cons, totalWeight_cons]
        omega
      · rw [List.take_succ_cons, totalWeight_cons]
        omega

/-- Claim C5: for every non-empty candidate list and uniform draw
`r ∈ [0, Σ max(weight,1))`, `weighted_random_select` walks the candidates in
order subtracting `max(weight,1)` and returns the candidate at which the
running total first exceeds the draw (equivalently: goes non-positive); a
single-candidate list is returned directly, independently of the draw (the
RNG is never consulted). -/
theorem c5_weighted_random_select {α : Type} (weight : α → Int) :
    (∀ (channels : List α) (r : Int), channels ≠ [] → 0 ≤ r →
       r < totalWeight weight channels →
       ∃ (i : Nat) (h : i < channels.length),
         weighted_random_select weight channels r = some (channels.get ⟨i, h⟩) ∧
         totalWeight weight (channels.take i) ≤ r ∧
         r < totalWeight weight (channels.take (i + 1))) ∧
    (∀ (c : α) (d₁ d₂ : Int),
       weighted_random_select weight [c] d₁ = weighted_random_select weight [c] d₂ ∧
       weighted_random_select weight [c] d₁ = some c) := by
  constructor
  · intro channels r hne h0 hr
    obtain ⟨i, h, heq, hlo, hhi⟩ := wrsLoop_spec weight channels r h0 hr
    refine ⟨i, h, ?_, hlo, hhi⟩
    unfold weighted_random_select
    by_cases hlen : channels.length = 1
    · rw [if_pos hlen]
      match channels, hlen with
      | [c], _ =>
        have : i = 0 := by omega
        subst this
        rfl
    · rw [if_neg hlen, heq]
  · intro c d₁ d₂
    constructor <;> rfl

/-- Witness for `c5_weighted_random_select` on a concrete two-element list and
in-range draw. -/
theorem c5_weighted_random_select_witness :
    ∃ (i : Nat) (h : i < [chRow1, chRow1].length),
      weighted_random_select (fun r => r.weight) [chRow1, chRow1] 1 =
        some ([chRow1, chRow1].get ⟨i, h⟩) ∧
      totalWeight (fun r => r.weight) ([chRow1, chRow1].take i) ≤ 1 ∧
      (1 : Int) < totalWeight (fun r => r.weight) ([chRow1, chRow1].take (i + 1)) :=
  (c5_weighted_random_select (fun r : ChannelRow => r.weight)).1
    [chRow1, chRow1] 1 (by decide) (by decide) (by decide)

-- C4 -------------------------------------------------------------------------

/-- Updating an entry changes exactly that entry's value. -/
theorem cbFind_cbUpdate_self (states : List (String × ChannelCircuit)) (id : String)
    (f : ChannelCircuit → ChannelCircuit) :
    cbFind (cbUpdate states id f) id = (cbFind states id).map f := by
  induction states with
  | nil => rfl
  | cons hd tl ih =>
    by_cases h : hd.1 = id
    · simp [cbUpdate, cbFind, List.find?_cons, h]
    · simp only [cbUpdate, cbFind, List.map_cons, if_neg h] at *
      rw [List.find?_cons_of_neg, List.find?_cons_of_neg]
      · exact ih
      · simp [h]
      · simp [h]

/-- Appending a fresh entry makes it the lookup result when the key was
absent. -/
theorem cbFind_append_self (states : List (String × ChannelCircuit)) (id : String)
    (v : ChannelCircuit) (h : states.any (fun p => p.1 = id) = false) :
    cbFind (states ++ [(id, v)]) id = some v := by
  induction states with
  | nil => simp [cbFind, List.find?]
  | cons hd tl ih =>
    simp only [List.any_cons, Bool.or_eq_false_iff] at h
    have h1 : ¬ hd.1 = id := by
      intro he
      rw [he] at h
      simp at h
    unfold cbFind at *
    rw [List.cons_append, List.find?_cons_of_neg]
    · exact ih h.2
    · simp [h1]

/-- Insert-or-update always yields the mutated entry on lookup. -/
theorem cbFind_cbUpsert_self (states : List (String × ChannelCircuit)) (id : String)
    (d : ChannelCircuit) (f : ChannelCircuit → ChannelCircuit) :
    cbFind (cbUpsert states id d f) id = some (f ((cbFind states id).getD d)) := by
  unfold cbUpsert
  by_cases h : states.any (fun p => p.1 = id) = true
  · rw [if_pos h, cbFind_cbUpdate_self]
    have hsome : (cbFind states id).isSome = true := by
      unfold cbFind
      rcases List.any_eq_true.1 h with ⟨p, hp, hpe⟩
      have hfind2 : (List.find? (fun q => decide (q.1 = id)) states).isSome = true :=
        List.find?_isSome.2 ⟨p, hp, hpe⟩
      obtain ⟨q, hq⟩ := Option.isSome_iff_exists.1 hfind2
      simp [hq]
    obtain ⟨c, hc⟩ := Option.isSome_iff_exists.1 hsome
    rw [hc]
    rfl
  · rw [if_neg h]
    rw [cbFind_append_self states id _ (Bool.eq_false_iff.mpr h)]
    have hnone : cbFind states id = Option.none := by
      unfold cbFind
      rw [Option.map_eq_none']
      rw [List.find?_eq_none]
      intro p hp
      simp only [decide_eq_true_eq]
      intro he
      exact absurd (List.any_eq_true.2 ⟨p, hp, by simp [he]⟩) h
    rw [hnone]
    rfl

/-- `record_failure` keeps the configured threshold. -/
theorem iterFailures_threshold (cb : CircuitBreaker) (id : String) (ts : Nat → Nat)
    (k : Nat) : (iterFailures cb id ts k).failure_threshold = cb.failure_threshold := by
  induction k with
  | zero => rfl
  | succ k ih => simp [iterFailures, CircuitBreaker.record_failure, ih]

/-- `record_failure` keeps the configured cooldown. -/
theorem iterFailures_cooldown (cb : CircuitBreaker) (id : String) (ts : Nat → Nat)
    (k : Nat) : (iterFailures cb id ts k).cooldown = cb.cooldown := by
  induction k with
  | zero => rfl
  | succ k ih => simp [iterFailures, CircuitBreaker.record_failure, ih]

/-- After `k ≥ 1` consecutive failures from a fresh breaker, the channel's
entry holds `k` failures, the last failure instant, and is Open exactly when
the threshold has been reached. -/
theorem iterFailures_lookup (N D : Nat) (id : String) (ts : Nat → Nat) (k : Nat)
    (hk : 1 ≤ k) :
    cbFind (iterFailures (CircuitBreaker.new N D) id ts k).states id =
      some { consecutive_failures := k,
             state := if N ≤ k then CircuitState.Open else .Closed,
             last_failure := some (ts (k - 1)) } := by
  induction k with
  | zero => omega
  | succ k ih =>
    have hstep : iterFailures (CircuitBreaker.new N D) id ts (k + 1) =
        (iterFailures (CircuitBreaker.new N D) id ts k).record_failure id (ts k) := rfl
    rw [hstep]
    unfold CircuitBreaker.record_failure
    dsimp only
    rw [cbFind_cbUpsert_self, iterFailures_threshold]
    have hthr : (CircuitBreaker.new N D).failure_threshold = N := rfl
    rw [hthr]
    rcases Nat.eq_zero_or_pos k with hk0 | hkpos
    · subst hk0
      have h0 : cbFind (iterFailures (CircuitBreaker.new N D) id ts 0).states id =
          Option.none := rfl
      rw [h0]
      dsimp only [Option.getD]
      by_cases hN : N ≤ 0 + 1
      · rw [if_pos (show 0 + 1 ≥ N from hN), if_pos hN]
      · rw [if_neg (show ¬ (0 + 1 ≥ N) from hN), if_neg hN]
    · rw [ih hkpos]
      dsimp only [Option.getD]
      by_cases hN : N ≤ k + 1
      · rw [if_pos (show k + 1 ≥ N from hN), if_pos hN]
        simp
      · have hNk : ¬ N ≤ k := by omega
        rw [if_neg (show ¬ (k + 1 ≥ N) from hN), if_neg hN, if_neg hNk]
        simp

/-- Claim C4: with `failure_threshold = N ≥ 1` and cooldown `D`, after exactly
`N` consecutive `record_failure(id)` calls on a fresh breaker (last failure at
instant `ts (N-1)`), `is_available(id)` is false at every instant in
`[last, last + D)` and true at instants `≥ last + D` (moving the entry to
HalfOpen); a non-Closed entry never becomes Closed through `is_available` or
`record_failure`, while `record_success` closes it and clears the counter. -/
theorem c4_circuit_breaker (N D : Nat) (id : String) (ts : Nat → Nat) (hN : 1 ≤ N) :
    (∀ t, ts (N - 1) ≤ t → t < ts (N - 1) + D →
       ((iterFailures (CircuitBreaker.new N D) id ts N).is_available id t).2 = false) ∧
    (∀ t, ts (N - 1) + D ≤ t →
       ((iterFailures (CircuitBreaker.new N D) id ts N).is_available id t).2 = true ∧
       cbFind (((iterFailures (CircuitBreaker.new N D) id ts N).is_available id t).1).states
           id =
         some { consecutive_failures := N, state := .HalfOpen,
                last_failure := some (ts (N - 1)) }) ∧
    (∀ (cb : CircuitBreaker) (cid : String) (t : Nat) (c : ChannelCircuit),
       cbFind cb.states cid = some c → c.state ≠ .Closed →
       (∀ c2, cbFind ((cb.is_available cid t).1).states cid = some c2 →
          c2.state ≠ .Closed) ∧
       (∀ c2, cbFind (cb.record_failure cid t).states cid = some c2 →
          c2.state ≠ .Closed)) ∧
    (∀ (cb : CircuitBreaker) (cid : String) (c : ChannelCircuit),
       cbFind cb.states cid = some c →
       cbFind (cb.record_success cid).states cid =
         some { c with consecutive_failures := 0, state := .Closed }) := by
  have hNN : N ≤ N := le_refl N
  have hfind := iterFailures_lookup N D id ts N hN
  rw [if_pos hNN] at hfind
  refine ⟨?_, ?_, ?_, ?_⟩
  · intro t hlo hhi
    unfold CircuitBreaker.is_available
    rw [hfind]
    dsimp only
    rw [iterFailures_cooldown]
    have : ¬ (t - ts (N - 1) ≥ (CircuitBreaker.new N D).cooldown) := by
      show ¬ ((CircuitBreaker.new N D).cooldown ≤ t - ts (N - 1))
      unfold CircuitBreaker.new
      dsimp only
      omega
    rw [if_neg this]
  · intro t ht
    unfold CircuitBreaker.is_available
    rw [hfind]
    dsimp only
    rw [iterFailures_cooldown]
    have hge : (t - ts (N - 1) ≥ (CircuitBreaker.new N D).cooldown) := by
      show (CircuitBreaker.new N D).cooldown ≤ t - ts (N - 1)
      unfold CircuitBreaker.new
      dsimp only
      omega
    rw [if_pos hge]
    refine ⟨rfl, ?_⟩
    dsimp only
    rw [cbFind_cbUpdate_self, hfind]
    rfl
  · intro cb cid t c hc hne
    constructor
    · intro c2 hc2
      unfold CircuitBreaker.is_available at hc2
      rw [hc] at hc2
      simp only [] at hc2
      cases hs : c.state with
      | Closed => exact absurd hs hne
      | HalfOpen =>
        rw [hs] at hc2
        simp only [] at hc2
        rw [hc] at hc2
        cases hc2
        rw [hs]
        simp
      | Open =>
        rw [hs] at hc2
        simp only [] at hc2
        cases hlast : c.last_failure with
        | none =>
          rw [hlast] at hc2
          simp only [] at hc2
          rw [hc] at hc2
          cases hc2
          rw [hs]
          simp
        | some lf =>
          rw [hlast] at hc2
          simp only [] at hc2
          by_cases hcd : (t - lf ≥ cb.cooldown)
          · rw [if_pos hcd] at hc2
            simp only [] at hc2
            rw [cbFind_cbUpdate_self, hc] at hc2
            cases hc2
            simp
          · rw [if_neg hcd] at hc2
            simp only [] at hc2
            rw [hc] at hc2
            cases hc2
            rw [hs]
            simp
    · intro c2 hc2
      unfold CircuitBreaker.record_failure at hc2
      dsimp only at hc2
      rw [cbFind_cbUpsert_self, hc] at hc2
      cases hc2
      dsimp only [Option.getD]
      by_cases hth : (c.consecutive_failures + 1 ≥ cb.failure_threshold)
      · rw [if_pos hth]
        simp
      · rw [if_neg hth]
        exact hne
  · intro cb cid c hc
    unfold CircuitBreaker.record_success
    dsimp only
    rw [cbFind_cbUpdate_self, hc]
    rfl

/-- Witness for `c4_circuit_breaker` with `N = 1`, `D = 60`, failure at
instant 100: unavailable at 100, available (and HalfOpen) at 160, the
non-Closed preservation at the tripped breaker, and `record_success` closing
it. -/
theorem c4_circuit_breaker_witness :
    ((iterFailures (CircuitBreaker.new 1 60) "ch" (fun _ => 100) 1).is_available
        "ch" 100).2 = false ∧
    ((iterFailures (CircuitBreaker.new 1 60) "ch" (fun _ => 100) 1).is_available
        "ch" 160).2 = true := by
  have h := c4_circuit_breaker 1 60 "ch" (fun _ => 100) (by decide)
  exact ⟨h.1 100 (by decide) (by decide), (h.2.1 160 (by decide)).1⟩

-- C6 -------------------------------------------------------------------------

/-- A list whose `getLast?` is `some a` contains `a`. -/
theorem mem_of_getLast?_eq_some {α : Type u} {l : List α} {a : α}
    (h : l.getLast? = some a) : a ∈ l := by
  obtain ⟨hne, heq⟩ := List.mem_getLast?_eq_getLast (l := l) (x := a) h
  rw [heq]
  exact List.getLast_mem hne

/-- The grouping fold only redistributes members: every grouped channel
satisfies any predicate that all inputs and all initially grouped channels
satisfy. -/
theorem groupFold_mem (P : ChannelRow → Prop) (rows : List ChannelRow)
    (init : List (Int × List ChannelRow))
    (hinit : ∀ g ∈ init, ∀ c ∈ g.2, P c) (hrows : ∀ c ∈ rows, P c) :
    ∀ g ∈ rows.foldl (fun groups row =>
      match groups.getLast? with
      | some g =>
        if g.1 = row.priority then groups.dropLast ++ [(g.1, g.2 ++ [row])]
        else groups ++ [(row.priority, [row])]
      | Option.none => [(row.priority, [row])]) init, ∀ c ∈ g.2, P c := by
  induction rows generalizing init with
  | nil => exact hinit
  | cons hd tl ih =>
    rw [List.foldl_cons]
    apply ih
    · cases hlast : init.getLast? with
      | none =>
        intro g hg c hc
        simp at hg
        subst hg
        simp at hc
        subst hc
        exact hrows _ (by simp)
      | some glast =>
        by_cases hp : glast.1 = hd.priority
        · simp only [hlast, hp, if_true]
          intro g hg c hc
          rcases List.mem_append.1 hg with h | h
          · exact hinit g (List.dropLast_subset _ h) c hc
          · simp at h
            subst h
            simp only at hc
            rcases List.mem_append.1 hc with h2 | h2
            · exact hinit glast (mem_of_getLast?_eq_some hlast) c h2
            · simp at h2
              subst h2
              exact hrows _ (by simp)
        · simp only [hlast, hp, if_false]
          intro g hg c hc
          rcases List.mem_append.1 hg with h | h
          · exact hinit g h c hc
          · simp at h
            subst h
            simp at hc
            subst hc
            exact hrows _ (by simp)
    · intro c hc
      exact hrows c (by simp [hc])

/-- Every channel inside a priority group came from the input list. -/
theorem groupByPriority_mem (rows : List ChannelRow) :
    ∀ g ∈ groupByPriority rows, ∀ c ∈ g.2, c ∈ rows := by
  unfold groupByPriority
  exact groupFold_mem (fun c => c ∈ rows) rows [] (by intro g hg; simp at hg) (fun c hc => hc)

/-- The grouping fold never loses all groups once one exists. -/
theorem groupFold_ne_nil (rows : List ChannelRow)
    (init : List (Int × List ChannelRow)) (hinit : init ≠ [] ∨ rows ≠ []) :
    rows.foldl (fun groups row =>
      match groups.getLast? with
      | some g =>
        if g.1 = row.priority then groups.dropLast ++ [(g.1, g.2 ++ [row])]
        else groups ++ [(row.priority, [row])]
      | Option.none => [(row.priority, [row])]) init ≠ [] := by
  induction rows generalizing init with
  | nil =>
    rcases hinit with h | h
    · exact h
    · simp at h
  | cons hd tl ih =>
    rw [List.foldl_cons]
    apply ih
    left
    cases hlast : init.getLast? with
    | none => simp
    | some glast =>
      by_cases hp : glast.1 = hd.priority <;> simp [hlast, hp]

/-- Grouping a non-empty channel list yields at least one group. -/
theorem groupByPriority_ne_nil (rows : List ChannelRow) (h : rows ≠ []) :
    groupByPriority rows ≠ [] :=
  groupFold_ne_nil rows [] (Or.inr h)

/-- Every group produced by the grouping fold is non-empty. -/
theorem groupFold_groups_ne_nil (rows : List ChannelRow)
    (init : List (Int × List ChannelRow)) (hinit : ∀ g ∈ init, g.2 ≠ []) :
    ∀ g ∈ rows.foldl (fun groups row =>
      match groups.getLast? with
      | some g =>
        if g.1 = row.priority then groups.dropLast ++ [(g.1, g.2 ++ [row])]
        else groups ++ [(row.priority, [row])]
      | Option.none => [(row.priority, [row])]) init, g.2 ≠ [] := by
  induction rows generalizing init with
  | nil => exact hinit
  | cons hd tl ih =>
    rw [List.foldl_cons]
    apply ih
    cases hlast : init.getLast? with
    | none =>
      intro g hg
      simp at hg
      subst hg
      simp
    | some glast =>
      by_cases hp : glast.1 = hd.priority
      · simp only [hlast, hp, if_true]
        intro g hg
        rcases List.mem_append.1 hg with h | h
        · exact hinit g (List.dropLast_subset _ h)
        · simp at h
          subst h
          simp
      · simp only [hlast, hp, if_false]
        intro g hg
        rcases List.mem_append.1 hg with h | h
        · exact hinit g h
        · simp at h
          subst h
          simp

/-- The subtraction walk only ever returns a member of the list. -/
theorem wrsLoop_mem (weight : α → Int) (channels : List α) (draw : Int) (c : α)
    (h : wrsLoop weight channels draw = some c) : c ∈ channels := by
  induction channels generalizing draw with
  | nil => exact absurd h (by simp [wrsLoop])
  | cons hd tl ih =>
    unfold wrsLoop at h
    dsimp only at h
    split at h
    · cases h
      simp
    · exact List.mem_cons_of_mem hd (ih _ h)

/-- Weighted selection from a non-empty list always yields a member. -/
theorem weighted_random_select_some_mem (weight : α → Int) (channels : List α)
    (draw : Int) (hne : channels ≠ []) :
    ∃ c ∈ channels, weighted_random_select weight channels draw = some c := by
  unfold weighted_random_select
  by_cases hlen : channels.length = 1
  · rw [if_pos hlen]
    cases channels with
    | nil => simp at hlen
    | cons hd tl => exact ⟨hd, by simp, rfl⟩
  · rw [if_neg hlen]
    cases hw : wrsLoop weight channels draw with
    | some c => exact ⟨c, wrsLoop_mem weight channels draw c hw, rfl⟩
    | none =>
      cases hg : channels.getLast? with
      | none =>
        cases channels with
        | nil => exact absurd rfl hne
        | cons hd tl => simp at hg
      | some c =>
        exact ⟨c, mem_of_getLast?_eq_some (l := channels) (a := c) hg, rfl⟩

/-- Claim C6 counterexample: a single enabled channel with a recognized
provider slug exists, yet (its circuit being open) the balancer returns
`AllChannelsFailed` instead of a channel with a synthesized mapping. -/
theorem c6_counterexample :
    select_channel_passthrough "gpt-x" [chRow1] (fun _ => false) (fun _ => some "k") 0 =
      .error (.AllChannelsFailed "gpt-x") ∧
    chRow1.enabled = true := by
  constructor <;> rfl

/-- Claim C6, amended: when the enabled-channel query result (after the
built-in provider-slug filter) is empty — in particular when no enabled
channels exist — the balancer returns `NoChannel(model)`; when it is non-empty
and every channel is circuit-available and has an enabled API key, the
balancer returns some queried channel with a synthesized mapping whose
`public_name` and `actual_name` equal the requested model and whose modality
is "chat".  (With an open circuit it may instead return `AllChannelsFailed`,
and with a missing key `Internal`, as the counterexample shows.) -/
theorem c6_amended (model : String) (rows : List ChannelRow)
    (avail : String → Bool) (apiKey : String → Option String) (draw : Int) :
    (rows.filter (fun c => is_system_rule_slug c.provider) = [] →
       select_channel_passthrough model rows avail apiKey draw =
         .error (.NoChannel model)) ∧
    (rows.filter (fun c => is_system_rule_slug c.provider) ≠ [] →
     (∀ c ∈ rows, avail c.id = true) →
     (∀ c ∈ rows, (apiKey c.id).isSome = true) →
     ∃ sel, select_channel_passthrough model rows avail apiKey draw = .ok sel ∧
       sel.mapping.public_name = model ∧ sel.mapping.actual_name = model ∧
       sel.mapping.modality = "chat" ∧ sel.channel ∈ rows) := by
  constructor
  · intro h
    unfold select_channel_passthrough
    rw [h]
    rfl
  · intro hne havail hkey
    unfold select_channel_passthrough
    have hfe : ¬ ((rows.filter (fun c => is_system_rule_slug c.provider)).isEmpty = true) := by
      intro he
      exact hne (by simpa using he)
    rw [if_neg hfe]
    cases hg : groupByPriority (rows.filter (fun c => is_system_rule_slug c.provider)) with
    | nil =>
      exact absurd hg (groupByPriority_ne_nil _ hne)
    | cons g rest =>
      have hgmem : ∀ c ∈ g.2, c ∈ rows := by
        intro c hc
        have := groupByPriority_mem (rows.filter (fun c => is_system_rule_slug c.provider))
          g (by rw [hg]; simp) c hc
        exact List.mem_of_mem_filter this
      have hg2ne : g.2 ≠ [] := by
        apply groupFold_groups_ne_nil (rows.filter (fun c => is_system_rule_slug c.provider))
          [] (by intro g2 hg2; simp at hg2) g
        rw [show (rows.filter (fun c => is_system_rule_slug c.provider)).foldl _ [] =
          groupByPriority (rows.filter (fun c => is_system_rule_slug c.provider)) from rfl]
        rw [hg]
        simp
      have hfilter : g.2.filter (fun r => avail r.id) = g.2 := by
        rw [List.filter_eq_self]
        intro c hc
        exact havail c (hgmem c hc)
      obtain ⟨sel, hselmem, hsel⟩ :=
        weighted_random_select_some_mem (fun r => r.weight)
          (g.2.filter (fun r => avail r.id)) draw (by rw [hfilter]; exact hg2ne)
      have hselrows : sel ∈ rows := hgmem sel (by rw [hfilter] at hselmem; exact hselmem)
      obtain ⟨key, hkeyeq⟩ := Option.isSome_iff_exists.1 (hkey sel hselrows)
      cases g with
      | mk gp gl =>
        unfold tryGroupsPassthrough
        dsimp only
        have hge : ¬ ((gl.filter (fun r => avail r.id)).isEmpty = true) := by
          simp only at hfilter hsel hselmem
          rw [hfilter]
          intro he
          exact hg2ne (by simpa using he)
        rw [if_neg hge]
        simp only at hsel
        rw [hsel]
        simp only []
        rw [hkeyeq]
        exact ⟨_, rfl, rfl, rfl, rfl, hselrows⟩

/-- Witness for `c6_amended`: with one enabled recognized channel, all
circuits closed and a key present, the balancer returns that channel with the
synthesized passthrough mapping. -/
theorem c6_amended_witness :
    ∃ sel, select_channel_passthrough "gpt-x" [chRow1] (fun _ => true)
        (fun _ => some "k") 0 = .ok sel ∧
      sel.mapping.public_name = "gpt-x" ∧ sel.mapping.actual_name = "gpt-x" ∧
      sel.mapping.modality = "chat" ∧ sel.channel ∈ [chRow1] :=
  (c6_amended "gpt-x" [chRow1] (fun _ => true) (fun _ => some "k") 0).2
    (by decide) (by decide) (by decide)

-- C7 -------------------------------------------------------------------------

set_option maxHeartbeats 2000000 in
/-- The per-line loop never reaches the done-signal branch when the upstream
decoder's terminal sentinel never fires; the `stream_done` flag stays down. -/
theorem proxyProcessLines_preserves {σ : Type} (dec : StreamDecoderI)
    (hdec : ∀ s, dec.is_stream_done s = false) (enc : StreamEncoderI σ)
    (lines : List String) (st : ProxyStreamState σ)
    (h1 : st.doneSignalCalled = false) (h2 : st.stream_done = false) :
    (proxyProcessLines dec enc lines st).doneSignalCalled = false ∧
    (proxyProcessLines dec enc lines st).stream_done = false := by
  induction lines generalizing st with
  | nil => exact ⟨h1, h2⟩
  | cons line rest ih =>
    simp only [proxyProcessLines]
    rw [if_neg (by simp [h2])]
    cases hdo : sseLineData line with
    | none => exact ih _ h1 h2
    | some data =>
      dsimp only
      rw [hdec]
      simp only [Bool.false_eq_true, if_false]
      cases hdc : dec.decode_stream_chunk data with
      | error err => dsimp only; exact ih _ h1 h2
      | ok o =>
        cases o with
        | none => dsimp only; exact ih _ h1 h2
        | some chunk =>
          dsimp only
          cases hec : (enc.encode_stream_chunk st.encSt chunk).2 with
          | error err => dsimp only; exact ih _ h1 h2
          | ok o2 =>
            cases o2 with
            | none => dsimp only; exact ih _ h1 h2
            | some encoded => dsimp only; exact ih _ h1 h2

/-- The block loop preserves the two flags under a never-firing sentinel. -/
theorem proxyProcessBlocks_preserves {σ : Type} (dec : StreamDecoderI)
    (hdec : ∀ s, dec.is_stream_done s = false) (enc : StreamEncoderI σ)
    (blocks : List String) (st : ProxyStreamState σ)
    (h1 : st.doneSignalCalled = false) (h2 : st.stream_done = false) :
    (proxyProcessBlocks dec enc blocks st).doneSignalCalled = false ∧
    (proxyProcessBlocks dec enc blocks st).stream_done = false := by
  induction blocks generalizing st with
  | nil => exact ⟨h1, h2⟩
  | cons block rest ih =>
    unfold proxyProcessBlocks
    rw [if_neg (by simp [h2])]
    obtain ⟨h1L, h2L⟩ := proxyProcessLines_preserves dec hdec enc (rustLines block) st h1 h2
    exact ih _ h1L h2L

/-- The chunk loop preserves the two flags under a never-firing sentinel. -/
theorem proxyStreamLoop_preserves {σ : Type} (dec : StreamDecoderI)
    (hdec : ∀ s, dec.is_stream_done s = false) (enc : StreamEncoderI σ)
    (chunks : List String) (st : ProxyStreamState σ)
    (h1 : st.doneSignalCalled = false) (h2 : st.stream_done = false) :
    (proxyStreamLoop dec enc chunks st).doneSignalCalled = false ∧
    (proxyStreamLoop dec enc chunks st).stream_done = false := by
  induction chunks generalizing st with
  | nil => exact ⟨h1, h2⟩
  | cons c rest ih =>
    unfold proxyStreamLoop
    rw [if_neg (by simp [h2])]
    obtain ⟨h1B, h2B⟩ := proxyProcessBlocks_preserves dec hdec enc
      (((st.buffer ++ c).splitOn "\n\n").dropLast)
      { st with buffer := (((st.buffer ++ c).splitOn "\n\n").getLast?).getD "" } h1 h2
    exact ih _ h1B h2B

/-- Claim C7, refuted by the code (code bug): for a Gemini upstream — whose
`is_stream_done` is constantly false — `proxy_stream` never invokes
`output_encoder.stream_done_signal()`, for any upstream byte-chunk sequence,
any parse oracle and any output encoder: the only call site is the per-line
sentinel branch, and after upstream EOF no final flush is performed, contrary
to the specification's required end-of-connection flush. -/
theorem c7_no_eof_flush {σ : Type}
    (parse : String → Except AppError (Option IrStreamChunk))
    (enc : StreamEncoderI σ) (encSt0 : σ) (chunks : List String) :
    (proxy_stream_run (geminiStreamDecoder parse) enc encSt0 chunks).doneSignalCalled =
      false ∧
    (proxy_stream_run (geminiStreamDecoder parse) enc encSt0 chunks).stream_done = false :=
  proxyStreamLoop_preserves (geminiStreamDecoder parse) (fun _ => rfl) enc chunks
    { buffer := "", stream_done := false, encSt := encSt0, out := [],
      doneSignalCalled := false } rfl rfl

/-- Witness evaluating the transducer at the failing input: a Gemini upstream
that sends one SSE block and then closes, with an output encoder whose done
signal is `"[DONE]"`; no done signal is ever emitted or invoked. -/
theorem c7_no_eof_flush_witness :
    (proxy_stream_run (geminiStreamDecoder (fun _ => .ok Option.none))
        doneOnlyStreamEncoder () ["data: \x7b\x7d\n\n"]).doneSignalCalled = false ∧
    (proxy_stream_run (geminiStreamDecoder (fun _ => .ok Option.none))
        doneOnlyStreamEncoder () ["data: \x7b\x7d\n\n"]).stream_done = false :=
  c7_no_eof_flush (fun _ => .ok Option.none) doneOnlyStreamEncoder () ["data: \x7b\x7d\n\n"]

/-- `getLast?` of a cons is the tail's `getLast?` with the head as fallback. -/
theorem getLast?_cons_eq {α : Type u} (a : α) (l : List α) :
    (a :: l).getLast? = some (l.getLast?.getD a) := by
  induction l generalizing a with
  | nil => rfl
  | cons b t ih => rw [List.getLast?_cons_cons, ih b]; rfl

/-- Characterization of the `decode_request` message loop: the lifted system
string is the text of the LAST system-role wire message (falling back to the
accumulator), and the decoded messages are the accumulator followed by the
converted non-system messages in order. -/
theorem oaiDecodeMessages_spec (msgs : List OaiMessage) (sys : Option String)
    (acc : List IrMessage) :
    (oaiDecodeMessages msgs sys acc).1 =
      (match (msgs.filter (fun m => m.role = "system")).getLast? with
       | some m => some (oai_content_to_ir m.content).to_text
       | Option.none => sys) ∧
    (oaiDecodeMessages msgs sys acc).2 =
      acc ++ (msgs.filter (fun m => ¬ m.role = "system")).map oaiDecodeMessage := by
  induction msgs generalizing sys acc with
  | nil => simp [oaiDecodeMessages]
  | cons msg rest ih =>
    by_cases hrole : msg.role = "system"
    · unfold oaiDecodeMessages
      rw [if_pos hrole]
      obtain ⟨ih1, ih2⟩ := ih (some (oai_content_to_ir msg.content).to_text) acc
      constructor
      · rw [ih1, List.filter_cons_of_pos (by simp [hrole]), getLast?_cons_eq]
        cases hA : (rest.filter (fun m => m.role = "system")).getLast? <;> simp
      · rw [ih2, List.filter_cons_of_neg (by simp [hrole])]
    · unfold oaiDecodeMessages
      rw [if_neg hrole]
      obtain ⟨ih1, ih2⟩ := ih sys (acc ++ [oaiDecodeMessage msg])
      constructor
      · rw [ih1, List.filter_cons_of_neg (by simp [hrole])]
      · rw [ih2, List.filter_cons_of_pos (by simp [hrole])]
        simp

/-- Claim C8, refuted: decoding an OpenAI Chat wire request with two
system-role messages ("A" first, "B" second) lifts the LAST one into the IR
`system` field, not the first as the claim states: the decoded system is
`some "B"`, not `some "A"`, even though the first wire message is a
system-role message with text "A". -/
theorem c8_counterexample :
    oaiReqTwoSystems.messages.head?.map (fun m => m.role) = some "system" ∧
    oaiReqTwoSystems.messages.head?.map
      (fun m => (oai_content_to_ir m.content).to_text) = some "A" ∧
    (oai_decode_request oaiReqTwoSystems).system = some "B" ∧
    ¬ (oai_decode_request oaiReqTwoSystems).system = some "A" := by
  refine ⟨rfl, rfl, rfl, ?_⟩
  decide

/-- Claim C8 as amended: encoding an IR request whose `system` field is
`some sys` emits the leading wire message `{role:"system",content:sys}`
followed by the encoded IR messages; decoding any OpenAI Chat wire request
lifts the LAST system-role message (not the first) into the IR `system`
field, and system-role messages do not appear in the decoded IR messages
list (the decoded list is exactly the non-system messages, converted in
order). -/
theorem c8_amended (ir : IrChatRequest) (model sys : String) (req : OaiRequest)
    (hsys : ir.system = some sys) :
    (oai_encode_request ir model).messages =
      { role := "system", content := some (.str sys) } ::
        ir.messages.map oaiEncodeMessage ∧
    (oai_decode_request req).system =
      ((req.messages.filter (fun m => m.role = "system")).getLast?).map
        (fun m => (oai_content_to_ir m.content).to_text) ∧
    (oai_decode_request req).messages =
      (req.messages.filter (fun m => ¬ m.role = "system")).map oaiDecodeMessage := by
  obtain ⟨h1, h2⟩ := oaiDecodeMessages_spec req.messages Option.none []
  refine ⟨?_, ?_, ?_⟩
  · simp [oai_encode_request, hsys]
  · show (oaiDecodeMessages req.messages Option.none []).1 = _
    rw [h1]
    cases hA : (req.messages.filter (fun m => m.role = "system")).getLast? <;> simp
  · show (oaiDecodeMessages req.messages Option.none []).2 = _
    rw [h2]
    simp

/-- Witness for the amended C8 at concrete inputs: encoding `irExSys` (system
prompt "S") prepends the system wire message, and decoding the two-system
request lifts the last system text "B". -/
theorem c8_amended_witness :
    irExSys.system = some "S" ∧
    ((oai_encode_request irExSys "m").messages =
      { role := "system", content := some (.str "S") } ::
        irExSys.messages.map oaiEncodeMessage ∧
    (oai_decode_request oaiReqTwoSystems).system = some "B") := by
  refine ⟨rfl, (c8_amended irExSys "m" "S" oaiReqTwoSystems rfl).1, ?_⟩
  rw [(c8_amended irExSys "m" "S" oaiReqTwoSystems rfl).2.1]
  rfl

/-- A fold whose step appends exactly one image of each element computes the
accumulator followed by the map. -/
theorem foldl_step_map {α β : Type} (step : List β → α → List β) (f : α → β)
    (P : α → Prop) (l : List α) (hl : ∀ a ∈ l, P a)
    (hstep : ∀ acc a, P a → step acc a = acc ++ [f a]) (acc : List β) :
    l.foldl step acc = acc ++ l.map f := by
  induction l generalizing acc with
  | nil => simp
  | cons a t ih =>
    rw [List.foldl_cons, hstep acc a (hl a (by simp))]
    rw [ih (fun x hx => hl x (by simp [hx]))]
    simp

/-- Filtering a mapped list with a predicate false on every image gives `[]`. -/
theorem filter_map_eq_nil {α β : Type} (f : α → β) (p : β → Bool) (l : List α)
    (h : ∀ a ∈ l, p (f a) = false) : (l.map f).filter p = [] := by
  induction l with
  | nil => rfl
  | cons a t ih =>
    simp only [List.map_cons, List.filter_cons, h a (by simp)]
    exact ih (fun x hx => h x (by simp [hx]))

/-- Filtering a mapped list with a predicate true on every image keeps it. -/
theorem filter_map_eq_self {α β : Type} (f : α → β) (p : β → Bool) (l : List α)
    (h : ∀ a ∈ l, p (f a) = true) : (l.map f).filter p = l.map f := by
  induction l with
  | nil => rfl
  | cons a t ih =>
    simp only [List.map_cons, List.filter_cons, h a (by simp)]
    rw [if_pos trivial, ih (fun x hx => h x (by simp [hx]))]

/-- Per-message round trip through the OpenAI Chat codec for simple messages:
the encoded role is never `"system"`, and role and text survive the trip. -/
theorem oaiEncodeMessage_simple (m : IrMessage) (hm : simpleMsg m) :
    ¬ (oaiEncodeMessage m).role = "system" ∧
    (oaiDecodeMessage (oaiEncodeMessage m)).role = m.role ∧
    (oaiDecodeMessage (oaiEncodeMessage m)).content.to_text = m.content.to_text := by
  obtain ⟨hrole, htc, s, hc, hs⟩ := hm
  have henc : oaiEncodeMessage m =
      { role := ir_role_to_oai m.role, content := some (ir_content_to_oai m.content),
        tool_calls := Option.none, tool_call_id := m.tool_call_id, name := m.name } := by
    unfold oaiEncodeMessage
    rw [htc]
  rcases hrole with h | h <;>
    simp [henc, h, hc, ir_role_to_oai, oai_role_to_ir, ir_content_to_oai,
      oai_content_to_ir, IrContent.to_text, oaiDecodeMessage]

/-- Round trip through the OpenAI Chat codec for requests whose messages are
all simple: every spec field except the ones below survives, and `model` and
`max_tokens` survive as well. -/
theorem oai_roundtrip (ir : IrChatRequest) (hsm : ∀ m ∈ ir.messages, simpleMsg m) :
    roundTripAgrees ir (oai_decode_request (oai_encode_request ir ir.model)) ∧
    (oai_decode_request (oai_encode_request ir ir.model)).model = ir.model ∧
    (oai_decode_request (oai_encode_request ir ir.model)).max_tokens = ir.max_tokens := by
  have hspec := oaiDecodeMessages_spec (oai_encode_request ir ir.model).messages
    Option.none []
  have hmsgs : (oai_encode_request ir ir.model).messages =
      (match ir.system with
       | some sys => [{ role := "system", content := some (.str sys) }]
       | Option.none => []) ++ ir.messages.map oaiEncodeMessage := rfl
  have hfil0 : (ir.messages.map oaiEncodeMessage).filter
      (fun m => m.role = "system") = [] := by
    refine filter_map_eq_nil _ _ _ (fun m hm => ?_)
    have h := (oaiEncodeMessage_simple m (hsm m hm)).1
    simp [h]
  have hfil1 : (ir.messages.map oaiEncodeMessage).filter
      (fun m => ¬ m.role = "system") = ir.messages.map oaiEncodeMessage := by
    refine filter_map_eq_self _ _ _ (fun m hm => ?_)
    have h := (oaiEncodeMessage_simple m (hsm m hm)).1
    simp [h]
  have hsys1 : (oai_decode_request (oai_encode_request ir ir.model)).system =
      ir.system := by
    show (oaiDecodeMessages (oai_encode_request ir ir.model).messages
      Option.none []).1 = _
    rw [hspec.1, hmsgs, List.filter_append, hfil0]
    cases hsys : ir.system with
    | none => simp
    | some s => simp [oai_content_to_ir, IrContent.to_text]
  have hmsgs2 : (oai_decode_request (oai_encode_request ir ir.model)).messages =
      ir.messages.map (fun m => oaiDecodeMessage (oaiEncodeMessage m)) := by
    show (oaiDecodeMessages (oai_encode_request ir ir.model).messages
      Option.none []).2 = _
    rw [hspec.2, hmsgs, List.filter_append, hfil1]
    cases hsys : ir.system <;> simp [List.map_map, Function.comp]
  refine ⟨⟨hsys1, rfl, rfl, ?_, ?_⟩, rfl, rfl⟩
  · rw [hmsgs2, List.map_map]
    refine List.map_congr_left (fun m hm => ?_)
    show (oaiDecodeMessage (oaiEncodeMessage m)).role = m.role
    exact (oaiEncodeMessage_simple m (hsm m hm)).2.1
  · rw [hmsgs2, List.map_map]
    refine List.map_congr_left (fun m hm => ?_)
    show (oaiDecodeMessage (oaiEncodeMessage m)).content.to_text = m.content.to_text
    exact (oaiEncodeMessage_simple m (hsm m hm)).2.2

/-- A simple message encodes to a single `message` input item under the
OpenAI Responses encoder. -/
theorem respEncodeItemStep_simple (acc : List OaiRespApiInputItem) (m : IrMessage)
    (hm : simpleMsg m) :
    respEncodeItemStep acc m =
      acc ++ [.message (ir_role_to_resp m.role) (ir_content_to_resp_input m.content)] := by
  obtain ⟨hrole, htc, s, hc, hs⟩ := hm
  rcases hrole with h | h <;> simp [respEncodeItemStep, h, htc]

/-- `resp_role_to_ir` inverts `ir_role_to_resp`. -/
theorem resp_role_roundtrip (r : IrRole) : resp_role_to_ir (ir_role_to_resp r) = r := by
  cases r <;> rfl

/-- Round trip through the OpenAI Responses codec for requests whose messages
are all simple. -/
theorem resp_roundtrip (ir : IrChatRequest) (hsm : ∀ m ∈ ir.messages, simpleMsg m) :
    roundTripAgrees ir (resp_decode_request (resp_encode_request ir ir.model)) ∧
    (resp_decode_request (resp_encode_request ir ir.model)).model = ir.model ∧
    (resp_decode_request (resp_encode_request ir ir.model)).max_tokens =
      ir.max_tokens := by
  have hitems : (resp_encode_request ir ir.model).input =
      .items (ir.messages.map (fun m =>
        OaiRespApiInputItem.message (ir_role_to_resp m.role)
          (ir_content_to_resp_input m.content))) := by
    show OaiRespApiInput.items (ir.messages.foldl respEncodeItemStep []) = _
    rw [foldl_step_map respEncodeItemStep _ simpleMsg ir.messages hsm
      (fun acc a ha => respEncodeItemStep_simple acc a ha) []]
    rfl
  have hmsgs : (resp_decode_request (resp_encode_request ir ir.model)).messages =
      ir.messages.map (fun m =>
        ({ role := resp_role_to_ir (ir_role_to_resp m.role)
           content := resp_content_to_ir (ir_content_to_resp_input m.content) }
          : IrMessage)) := by
    simp only [resp_decode_request, hitems, List.map_map]
    rfl
  refine ⟨⟨rfl, rfl, rfl, ?_, ?_⟩, rfl, rfl⟩
  · rw [hmsgs, List.map_map]
    refine List.map_congr_left (fun m hm => ?_)
    show resp_role_to_ir (ir_role_to_resp m.role) = m.role
    exact resp_role_roundtrip m.role
  · rw [hmsgs, List.map_map]
    refine List.map_congr_left (fun m hm => ?_)
    obtain ⟨hrole, htc, s, hc, hs⟩ := hsm m hm
    show (resp_content_to_ir (ir_content_to_resp_input m.content)).to_text =
      m.content.to_text
    rw [hc]
    rfl

/-- A simple message encodes to a single text part under the Gemini encoder. -/
theorem geminiEncodeContentStep_simple (parseJson : String → Option Json)
    (acc : List GeminiContent) (m : IrMessage) (hm : simpleMsg m) :
    geminiEncodeContentStep parseJson acc m =
      acc ++ [{ role := some (ir_role_to_gemini m.role)
                parts := [{ text := some m.content.to_text }] }] := by
  obtain ⟨hrole, htc, s, hc, hs⟩ := hm
  have hne : s.isEmpty = false := by
    cases hempty : s.isEmpty
    · rfl
    · exact absurd ((String.isEmpty_iff s).mp hempty) hs
  rcases hrole with h | h <;>
    simp [geminiEncodeContentStep, h, hc, htc, ir_content_to_gemini_parts, hne,
      ir_role_to_gemini, IrContent.to_text]

/-- Decoding a single-text-part Gemini content yields one plain message. -/
theorem geminiDecodeContentStep_text (acc : List IrMessage) (r s : String) :
    geminiDecodeContentStep acc { role := some r, parts := [{ text := some s }] } =
      acc ++ [{ role := gemini_role_to_ir r, content := .text s }] := by
  rfl

/-- `gemini_role_to_ir` inverts `ir_role_to_gemini` on user/assistant roles. -/
theorem gemini_role_roundtrip (r : IrRole) (h : r = .user ∨ r = .assistant) :
    gemini_role_to_ir (ir_role_to_gemini r) = r := by
  rcases h with h | h <;> subst h <;> rfl

/-- Round trip through the Gemini codec for requests whose messages are all
simple: everything in the spec's field list survives except `model`, which
Gemini does not carry in the request body, so decode returns `""`. -/
theorem gemini_roundtrip (parseJson : String → Option Json) (ir : IrChatRequest)
    (hsm : ∀ m ∈ ir.messages, simpleMsg m) :
    roundTripAgrees ir
      (gemini_decode_request (gemini_encode_request parseJson ir ir.model)) ∧
    (gemini_decode_request (gemini_encode_request parseJson ir ir.model)).model = "" ∧
    (gemini_decode_request (gemini_encode_request parseJson ir ir.model)).max_tokens =
      ir.max_tokens := by
  have hcont : (gemini_encode_request parseJson ir ir.model).contents =
      ir.messages.map (fun m =>
        ({ role := some (ir_role_to_gemini m.role)
           parts := [{ text := some m.content.to_text }] } : GeminiContent)) := by
    show ir.messages.foldl (geminiEncodeContentStep parseJson) [] = _
    rw [foldl_step_map (geminiEncodeContentStep parseJson) _ simpleMsg ir.messages hsm
      (fun acc a ha => geminiEncodeContentStep_simple parseJson acc a ha) []]
    rfl
  have hmsgs : (gemini_decode_request
      (gemini_encode_request parseJson ir ir.model)).messages =
      ir.messages.map (fun m =>
        ({ role := gemini_role_to_ir (ir_role_to_gemini m.role)
           content := .text m.content.to_text } : IrMessage)) := by
    show ((gemini_encode_request parseJson ir ir.model).contents).foldl
      geminiDecodeContentStep [] = _
    rw [hcont, List.foldl_map]
    rw [foldl_step_map
      (fun acc m => geminiDecodeContentStep acc
        { role := some (ir_role_to_gemini m.role)
          parts := [{ text := some m.content.to_text }] })
      (fun m => ({ role := gemini_role_to_ir (ir_role_to_gemini m.role)
                   content := .text m.content.to_text } : IrMessage))
      (fun _ => True) ir.messages (fun _ _ => trivial)
      (fun acc a _ =>
        geminiDecodeContentStep_text acc (ir_role_to_gemini a.role) a.content.to_text)
      []]
    rfl
  have hgen : (gemini_encode_request parseJson ir ir.model).generation_config =
      (if ir.temperature.isSome ∨ ir.top_p.isSome ∨ ir.max_tokens.isSome ∨
          ir.stop.isSome then
        some { temperature := ir.temperature, top_p := ir.top_p,
               max_output_tokens := ir.max_tokens, stop_sequences := ir.stop }
      else Option.none) := rfl
  have hsys : (gemini_decode_request
      (gemini_encode_request parseJson ir ir.model)).system = ir.system := by
    show ((gemini_encode_request parseJson ir ir.model).system_instruction).map _ = _
    show (ir.system.map (fun s =>
      ({ parts := [{ text := some s }] } : GeminiSystemInstruction))).map _ = _
    cases ir.system <;> rfl
  have htemp : (gemini_decode_request
      (gemini_encode_request parseJson ir ir.model)).temperature = ir.temperature := by
    show ((gemini_encode_request parseJson ir ir.model).generation_config).bind
      (fun g => g.temperature) = _
    rw [hgen]
    by_cases hcond : ir.temperature.isSome ∨ ir.top_p.isSome ∨
        ir.max_tokens.isSome ∨ ir.stop.isSome
    · rw [if_pos hcond]
      rfl
    · rw [if_neg hcond]
      push_neg at hcond
      rw [Option.not_isSome_iff_eq_none.mp hcond.1]
      rfl
  have htop : (gemini_decode_request
      (gemini_encode_request parseJson ir ir.model)).top_p = ir.top_p := by
    show ((gemini_encode_request parseJson ir ir.model).generation_config).bind
      (fun g => g.top_p) = _
    rw [hgen]
    by_cases hcond : ir.temperature.isSome ∨ ir.top_p.isSome ∨
        ir.max_tokens.isSome ∨ ir.stop.isSome
    · rw [if_pos hcond]
      rfl
    · rw [if_neg hcond]
      push_neg at hcond
      rw [Option.not_isSome_iff_eq_none.mp hcond.2.1]
      rfl
  have hmax : (gemini_decode_request
      (gemini_encode_request parseJson ir ir.model)).max_tokens = ir.max_tokens := by
    show ((gemini_encode_request parseJson ir ir.model).generation_config).bind
      (fun g => g.max_output_tokens) = _
    rw [hgen]
    by_cases hcond : ir.temperature.isSome ∨ ir.top_p.isSome ∨
        ir.max_tokens.isSome ∨ ir.stop.isSome
    · rw [if_pos hcond]
      rfl
    · rw [if_neg hcond]
      push_neg at hcond
      rw [Option.not_isSome_iff_eq_none.mp hcond.2.2.1]
      rfl
  refine ⟨⟨hsys, htemp, htop, ?_, ?_⟩, rfl, hmax⟩
  · rw [hmsgs, List.map_map]
    refine List.map_congr_left (fun m hm => ?_)
    show gemini_role_to_ir (ir_role_to_gemini m.role) = m.role
    exact gemini_role_roundtrip m.role (hsm m hm).1
  · rw [hmsgs, List.map_map]
    refine List.map_congr_left (fun m hm => ?_)
    show (IrContent.text m.content.to_text).to_text = m.content.to_text
    rfl

/-- A simple message encodes to a single-text-block Anthropic message. -/
theorem anthropicEncodeMessageStep_simple (parseJson : String → Option Json)
    (acc : List AnthropicMessage) (m : IrMessage) (hm : simpleMsg m) :
    anthropicEncodeMessageStep parseJson acc m = acc ++
      [{ role := if m.role = .user then "user" else "assistant"
         content := .arr [Json.obj [("type", .str "text"),
           ("text", .str m.content.to_text)]] }] := by
  obtain ⟨hrole, htc, s, hc, hs⟩ := hm
  have hne : s.isEmpty = false := by
    cases hempty : s.isEmpty
    · rfl
    · exact absurd ((String.isEmpty_iff s).mp hempty) hs
  rcases hrole with h | h <;>
    simp [anthropicEncodeMessageStep, h, hc, htc, ir_content_to_anthropic, hne,
      anthropicAssistantBlocks, IrContent.to_text]

/-- Decoding a single-text-block user message yields one plain user message. -/
theorem anthropicDecodeMessageStep_text_user (acc : List IrMessage) (s : String) :
    anthropicDecodeMessageStep acc
      { role := "user"
        content := .arr [Json.obj [("type", .str "text"), ("text", .str s)]] } =
      acc ++ [{ role := .user, content := .text s }] := by
  show acc ++ [] ++ [{ role := .user, content := .text s }] = _
  simp

/-- Decoding a single-text-block assistant message yields one plain assistant
message. -/
theorem anthropicDecodeMessageStep_text_assistant (acc : List IrMessage) (s : String) :
    anthropicDecodeMessageStep acc
      { role := "assistant"
        content := .arr [Json.obj [("type", .str "text"), ("text", .str s)]] } =
      acc ++ [{ role := .assistant, content := .text s }] := by
  rfl

/-- Composition of the Anthropic encode and decode steps on a simple message. -/
theorem anthropicDecode_of_encode_simple (acc : List IrMessage) (m : IrMessage)
    (hm : simpleMsg m) :
    anthropicDecodeMessageStep acc
      { role := if m.role = .user then "user" else "assistant"
        content := .arr [Json.obj [("type", .str "text"),
          ("text", .str m.content.to_text)]] } =
      acc ++ [{ role := if m.role = .user then IrRole.user else .assistant
                content := .text m.content.to_text }] := by
  rcases hm.1 with h | h
  · simp [h, anthropicDecodeMessageStep_text_user]
  · simp [h, anthropicDecodeMessageStep_text_assistant]

/-- Round trip through the Anthropic codec for requests whose messages are all
simple: everything in the spec's field list survives except `max_tokens`,
which the encoder defaults to 4096 when absent (and the wire field is
mandatory, so decode always returns `some`). -/
theorem anthropic_roundtrip (parseJson : String → Option Json) (ir : IrChatRequest)
    (hsm : ∀ m ∈ ir.messages, simpleMsg m) :
    roundTripAgrees ir
      (anthropic_decode_request (anthropic_encode_request parseJson ir ir.model)) ∧
    (anthropic_decode_request
      (anthropic_encode_request parseJson ir ir.model)).model = ir.model ∧
    (anthropic_decode_request
      (anthropic_encode_request parseJson ir ir.model)).max_tokens =
      some (ir.max_tokens.getD 4096) := by
  have henc : (anthropic_encode_request parseJson ir ir.model).messages =
      ir.messages.map (fun m =>
        ({ role := if m.role = .user then "user" else "assistant"
           content := .arr [Json.obj [("type", .str "text"),
             ("text", .str m.content.to_text)]] } : AnthropicMessage)) := by
    show ir.messages.foldl (anthropicEncodeMessageStep parseJson) [] = _
    rw [foldl_step_map (anthropicEncodeMessageStep parseJson) _ simpleMsg ir.messages hsm
      (fun acc a ha => anthropicEncodeMessageStep_simple parseJson acc a ha) []]
    rfl
  have hdec : (anthropic_decode_request
      (anthropic_encode_request parseJson ir ir.model)).messages =
      ir.messages.map (fun m =>
        ({ role := if m.role = .user then IrRole.user else .assistant
           content := .text m.content.to_text } : IrMessage)) := by
    show ((anthropic_encode_request parseJson ir ir.model).messages).foldl
      anthropicDecodeMessageStep [] = _
    rw [henc, List.foldl_map]
    rw [foldl_step_map
      (fun acc m => anthropicDecodeMessageStep acc
        { role := if m.role = .user then "user" else "assistant"
          content := .arr [Json.obj [("type", .str "text"),
            ("text", .str m.content.to_text)]] })
      (fun m => ({ role := if m.role = .user then IrRole.user else .assistant
                   content := .text m.content.to_text } : IrMessage))
      simpleMsg ir.messages hsm
      (fun acc a ha => anthropicDecode_of_encode_simple acc a ha) []]
    rfl
  have hsys : (anthropic_decode_request
      (anthropic_encode_request parseJson ir ir.model)).system = ir.system := by
    show (ir.system.map (fun s => Json.str s)).map _ = ir.system
    cases ir.system <;> rfl
  refine ⟨⟨hsys, rfl, rfl, ?_, ?_⟩, rfl, rfl⟩
  · rw [hdec, List.map_map]
    refine List.map_congr_left (fun m hm => ?_)
    show (if m.role = .user then IrRole.user else .assistant) = m.role
    rcases (hsm m hm).1 with h | h <;> simp [h]
  · rw [hdec, List.map_map]
    refine List.map_congr_left (fun m hm => ?_)
    show (IrContent.text m.content.to_text).to_text = m.content.to_text
    rfl

/-- Claim C1, refuted: the round trip is not the identity on the claimed field
list.  The Gemini codec does not carry the model in the request body, so the
round trip through it maps `model = "m"` to `""`; the Anthropic encoder
defaults an absent `max_tokens` to 4096, which decode then reports as
`some 4096`. -/
theorem c1_counterexample :
    irEx.model = "m" ∧
    (gemini_decode_request
      (gemini_encode_request (fun _ => Option.none) irEx irEx.model)).model = "" ∧
    ¬ (gemini_decode_request
      (gemini_encode_request (fun _ => Option.none) irEx irEx.model)).model =
        irEx.model ∧
    irEx.max_tokens = Option.none ∧
    (anthropic_decode_request
      (anthropic_encode_request (fun _ => Option.none) irEx irEx.model)).max_tokens =
      some 4096 := by
  refine ⟨rfl, rfl, ?_⟩
  decide

/-- Claim C1 as amended: for requests whose messages are all simple (user or
assistant role, plain non-empty text, no tool calls), the round trip
`decode_request ∘ encode_request` through each of the five built-in codecs
preserves `system`, `temperature`, `top_p`, every message's role and every
message's `to_text`; `model` and `max_tokens` are also preserved by the
OpenAI Chat, Moonshot and OpenAI Responses codecs, while the Gemini round
trip returns `model = ""` (the body carries no model) and the Anthropic round
trip returns `max_tokens = some (ir.max_tokens.getD 4096)` (the wire field is
mandatory and defaulted). -/
theorem c1_amended (parseJson : String → Option Json) (ir : IrChatRequest)
    (hsm : ∀ m ∈ ir.messages, simpleMsg m) :
    (roundTripAgrees ir (oai_decode_request (oai_encode_request ir ir.model)) ∧
     (oai_decode_request (oai_encode_request ir ir.model)).model = ir.model ∧
     (oai_decode_request (oai_encode_request ir ir.model)).max_tokens =
       ir.max_tokens) ∧
    (roundTripAgrees ir
       (moonshot_decode_request (moonshot_encode_request ir ir.model)) ∧
     (moonshot_decode_request (moonshot_encode_request ir ir.model)).model =
       ir.model ∧
     (moonshot_decode_request (moonshot_encode_request ir ir.model)).max_tokens =
       ir.max_tokens) ∧
    (roundTripAgrees ir (resp_decode_request (resp_encode_request ir ir.model)) ∧
     (resp_decode_request (resp_encode_request ir ir.model)).model = ir.model ∧
     (resp_decode_request (resp_encode_request ir ir.model)).max_tokens =
       ir.max_tokens) ∧
    (roundTripAgrees ir
       (anthropic_decode_request (anthropic_encode_request parseJson ir ir.model)) ∧
     (anthropic_decode_request
       (anthropic_encode_request parseJson ir ir.model)).model = ir.model ∧
     (anthropic_decode_request
       (anthropic_encode_request parseJson ir ir.model)).max_tokens =
       some (ir.max_tokens.getD 4096)) ∧
    (roundTripAgrees ir
       (gemini_decode_request (gemini_encode_request parseJson ir ir.model)) ∧
     (gemini_decode_request (gemini_encode_request parseJson ir ir.model)).model =
       "" ∧
     (gemini_decode_request
       (gemini_encode_request parseJson ir ir.model)).max_tokens = ir.max_tokens) :=
  ⟨oai_roundtrip ir hsm, oai_roundtrip ir hsm, resp_roundtrip ir hsm,
   anthropic_roundtrip parseJson ir hsm, gemini_roundtrip parseJson ir hsm⟩

/-- Witness for the amended C1 at the concrete request `irEx` (model "m", one
user message "Hi"), with a trivial parse oracle. -/
theorem c1_amended_witness :
    (∀ m ∈ irEx.messages, simpleMsg m) ∧
    roundTripAgrees irEx (oai_decode_request (oai_encode_request irEx irEx.model)) ∧
    roundTripAgrees irEx
      (gemini_decode_request
        (gemini_encode_request (fun _ => Option.none) irEx irEx.model)) := by
  have hs : ∀ m ∈ irEx.messages, simpleMsg m := by
    intro m hm
    simp only [irEx, List.mem_singleton] at hm
    subst hm
    exact ⟨Or.inl rfl, rfl, "Hi", rfl, by decide⟩
  exact ⟨hs, (c1_amended (fun _ => Option.none) irEx hs).1.1,
    (c1_amended (fun _ => Option.none) irEx hs).2.2.2.2.1⟩

/-- Witness for `c3_responses_completed_exactly_once` at the concrete empty
chunk sequence: the run still emits `response.completed` exactly once, last. -/
theorem c3_responses_completed_witness :
    ((runRespEncoder []).countP isCompletedEvent) = 1 ∧
    ((runRespEncoder []).getLast?.map (fun e => e.event_type)) =
      some "response.completed" :=
  c3_responses_completed_exactly_once.2.2 []

/-- Witness for `c10_anthropic_no_empty_assistant_content` at a concrete
assistant message with empty text and no tool calls. -/
theorem c10_anthropic_witness :
    (IrContent.text "").is_empty = true ∧
    anthropicAssistantBlocks (fun _ => Option.none)
      { role := .assistant, content := .text "" } =
      [Json.obj [("type", .str "text"), ("text", .str "")]] :=
  ⟨rfl, c10_anthropic_no_empty_assistant_content.2.1 (fun _ => Option.none)
    { role := .assistant, content := .text "" } rfl rfl⟩
